import Mathlib

/-! Fillout → Attio webhook relay: a verification development.

The repository holds three HTTP handlers written in JavaScript:

* `src/index.js`            – the Express route `app.post("/webhook")`   (namespace `Index`)
* `src/api/webhook.js`      – the Vercel serverless `handler`            (namespace `Api`)
* `src/pages/api/webhook.js`– the Next.js `handler`, a test stub         (namespace `Pages`)

How the JavaScript is embedded:

* A JavaScript value that can occur in a parsed JSON document (or be produced from one by
  property access) is a `JVal`.  A number is given by the text JavaScript prints for it
  (`String(n)`: `"0"` for both zeros, `"0.5"`, `"1e+21"`): the handlers only test a number
  for truthiness, compare a `length` with 0, copy it, or print it.
* An expression that may throw is an `Option`: `none` is a thrown exception.  Both full
  handlers run inside one `try { ... } catch`, whose `catch` answers 500, so that a handler
  is a total function to an `Outcome`.  A template literal evaluated for `console.log`
  converts its operands to strings and throws when an operand has no string form; what is
  printed is not modelled.
* `fetch` is an oracle `Crm` from the request issued to what comes back; every request
  issued is appended to the `calls` of the outcome, in order.
* The object `updateData` is an `UpdateData`: its own properties in creation order and its
  prototype.  `assign` is the write `updateData[k] = v`, which for the key `__proto__` goes
  through the accessor of `Object.prototype`.  What is sent to the CRM, `Object.keys` and
  `JSON.stringify` see the own properties only.  JavaScript enumerates the keys that are
  array indices first; no statement below depends on the order of the properties.
* The blocks that the source marks `PASO 1` to `PASO 4` are the functions `paso1`, `paso2`
  and `paso3` of each handler; each gives the calls it issues followed by those of the
  block it goes on with.
* `Object.entries(FILLOUT_FIELD_MAPPINGS)` is a list of pairs (the enumeration JavaScript
  produces for the table).
-/

set_option autoImplicit false

/-! ## JavaScript values -/

/-- JavaScript values reachable from a parsed JSON body. -/
inductive JVal where
  | undefined
  | null
  | bool (b : Bool)
  | num (text : String)
  | str (s : String)
  | arr (xs : List JVal)
  | obj (props : List (String × JVal))

namespace JVal

/-- Truthiness (`ToBoolean`): what `!v`, `v && ...`, `v || ...` test. -/
def truthy : JVal → Bool
  | undefined => false
  | null => false
  | bool b => b
  | num text => text != "0" && text != "NaN"
  | str s => s != ""
  | arr _ => true
  | obj _ => true

/-- The values on which a property access throws a `TypeError`. -/
def isNullish : JVal → Bool
  | undefined => true
  | null => true
  | _ => false

/-- The test `Array.isArray(v)`. -/
def isArray : JVal → Bool
  | arr _ => true
  | _ => false

/-- The test `v === s` against a string `s` (strict equality: no coercion). -/
def strictEq : JVal → String → Bool
  | str t, s => t == s
  | _, _ => false

/-- Own property `k` of an object given by its property list; `undefined` when absent. -/
def lookupProp : List (String × JVal) → String → JVal
  | [], _ => undefined
  | (k', v) :: rest, k => if k' == k then v else lookupProp rest k

/-- Value of `v.k` for a `v` that is neither `null` nor `undefined`, where `k` is one of the
property names the handlers read (`questions`, `responses`, `response`, `id`, `name`,
`value`, `data`, `record_id`, `entry_id`): an own property for an object, `undefined` for
an array or a primitive, which have no such property. -/
def prop : JVal → String → JVal
  | obj props, k => lookupProp props k
  | _, _ => undefined

/-- The expression `v.k`: throws on `null` and `undefined`. -/
def getProp (v : JVal) (k : String) : Option JVal :=
  if v.isNullish then none else some (v.prop k)

/-- The expression `v?.k` (optional chaining). -/
def optProp (v : JVal) (k : String) : JVal :=
  if v.isNullish then undefined else v.prop k

/-- The test `v.length === 0` for a truthy `v`. -/
def lengthIsZero : JVal → Bool
  | arr xs => xs.isEmpty
  | str s => s == ""
  | obj props =>
    match lookupProp props "length" with
    | num text => text == "0"
    | _ => false
  | _ => false

/-- The expression `v[0]`: throws on `null` and `undefined`; the first element of an array,
the first code unit of a string (as a string), the property `"0"` of an object. -/
def index0 : JVal → Option JVal
  | undefined => none
  | null => none
  | arr [] => some undefined
  | arr (x :: _) => some x
  | str s => some (if s == "" then undefined else str (s.take 1))
  | obj props => some (lookupProp props "0")
  | _ => some undefined

/-- Whether an object given by its property list has the own property `k`. -/
def hasOwn (props : List (String × JVal)) (k : String) : Bool :=
  props.any fun p => p.1 == k

mutual
/-- The string conversion of a template literal operand (`ToString`); `none` is the
`TypeError` thrown for a value without a primitive form.  An object parsed from JSON
inherits `Object.prototype.toString` unless it has an own property `toString`, which is
never callable: then neither `toString` nor `valueOf` gives a primitive.  An array is
joined. -/
def toStr : JVal → Option String
  | undefined => some "undefined"
  | null => some "null"
  | bool true => some "true"
  | bool false => some "false"
  | num text => some text
  | str s => some s
  | arr xs => joinStr xs true
  | obj props => if hasOwn props "toString" then none else some "[object Object]"
termination_by structural v => v
/-- `Array.prototype.join(",")`: `null` and `undefined` elements give the empty string,
the other elements are converted to strings. -/
def joinStr : List JVal → Bool → Option String
  | [], _ => some ""
  | x :: rest, first =>
    match (match x with
        | undefined => some ""
        | null => some ""
        | y => toStr y) with
    | none => none
    | some s =>
      match joinStr rest false with
      | none => none
      | some t => some ((if first then "" else ",") ++ s ++ t)
termination_by structural xs => xs
end

/-- The property key a value denotes in `o[v] = ...` (`ToPropertyKey`); `none` when the
conversion throws. -/
def toPropertyKey (v : JVal) : Option String := toStr v

end JVal

open JVal

/-! ## Arrays of questions -/

/-- The call `responses.find((q) => q.id === fieldId)` on an array: the first element whose
`id` is strictly equal to `fieldId`, `undefined` when there is none; the callback throws on
a `null` element. -/
def findById : List JVal → String → Option JVal
  | [], _ => some undefined
  | q :: rest, fieldId =>
    match getProp q "id" with
    | none => none
    | some i => if strictEq i fieldId then some q else findById rest fieldId

/-- The own properties of `updateData`, in creation order: the `values` sent to the CRM. -/
abbrev UpdateSet := List (String × JVal)

/-- Writing an own data property: overwrite the property when it exists, create it
otherwise. -/
def setProp : UpdateSet → String → JVal → UpdateSet
  | [], k, v => [(k, v)]
  | (k', v') :: rest, k, v =>
    if k' == k then (k', v) :: rest else (k', v') :: setProp rest k v

/-- The prototype of `updateData`: `Object.prototype` for the literal `{}`, until an
assignment to `__proto__` replaces it by an object or array of the payload, or by `null`. -/
inductive Proto where
  | objectPrototype
  | null
  | value (p : JVal)

/-- The object `updateData`. -/
structure UpdateData where
  own : UpdateSet
  proto : Proto

/-- The literal `{}` of `const updateData = {}`. -/
def UpdateData.empty : UpdateData := ⟨[], .objectPrototype⟩

/-- Whether an assignment to `__proto__` that finds no own property reaches the accessor of
`Object.prototype`: not when the prototype chain is empty, and not when the prototype is
an object of the payload that has an own data property `__proto__` (`JSON.parse` creates
such properties), which is found first. -/
def Proto.reachesAccessor : Proto → Bool
  | .objectPrototype => true
  | .null => false
  | .value (obj props) => !hasOwn props "__proto__"
  | .value _ => true

/-- The assignment `updateData[k] = v` (`OrdinarySet`).  For every key but `__proto__` it
writes an own data property.  For `__proto__`: an own property of that name is overwritten;
otherwise, when the accessor of `Object.prototype` is reached, its setter replaces the
prototype if `v` is an object, an array or `null` and does nothing for another value, and
no own property is created; when it is not reached, an own property is created. -/
def assign (u : UpdateData) (k : String) (v : JVal) : UpdateData :=
  if k == "__proto__" then
    if hasOwn u.own "__proto__" then ⟨setProp u.own k v, u.proto⟩
    else if u.proto.reachesAccessor then
      match v with
      | obj _ => ⟨u.own, .value v⟩
      | arr _ => ⟨u.own, .value v⟩
      | null => ⟨u.own, .null⟩
      | _ => u
    else ⟨setProp u.own k v, u.proto⟩
  else ⟨setProp u.own k v, u.proto⟩

/-- Value recorded for attribute `k`, if any. -/
def UpdateSet.get (u : UpdateSet) (k : String) : Option JVal :=
  match u with
  | [] => none
  | (k', v) :: rest => if k' == k then some v else UpdateSet.get rest k

/-! ## Configuration, CRM requests and outcomes -/

/-- The configuration constants of a handler.  A variable of the environment that is not set
is the empty string here: the handlers test these values for truthiness before any use. -/
structure Config where
  ATTIO_API_KEY : String
  ATTIO_LIST_ID : String
  FILLOUT_DOMAIN_FIELD_ID : String
  ATTIO_DOMAIN_ATTRIBUTE : String
  /-- The list `Object.entries(FILLOUT_FIELD_MAPPINGS)`. -/
  FILLOUT_FIELD_MAPPINGS : List (String × String)

/-- The guard `!ATTIO_API_KEY || !ATTIO_LIST_ID || !FILLOUT_DOMAIN_FIELD_ID` is false. -/
def Config.present (cfg : Config) : Bool :=
  cfg.ATTIO_API_KEY != "" && cfg.ATTIO_LIST_ID != "" && cfg.FILLOUT_DOMAIN_FIELD_ID != ""

/-- A request sent to the CRM with `fetch`. -/
inductive Call where
  /-- Request `POST /v2/objects/companies/records/query` with the filter
  `{[attr]: {$contains: domain}}` and `limit: 1`. -/
  | companyQuery (apiKey attr : String) (domain : JVal)
  /-- Request `POST /v2/lists/{listId}/entries/query` with the filter on the parent record
  `companyId` and `limit: 1`. -/
  | listQuery (apiKey listId : String) (companyId : JVal)
  /-- Request `PATCH /v2/lists/{listId}/entries/{entryId}` with `{data: {values}}`. -/
  | patchEntry (apiKey listId : String) (entryId : JVal) (values : UpdateSet)

/-- What `await fetch(...)` gives. -/
inductive FetchResult where
  /-- The promise rejects (network failure). -/
  | rejected
  /-- A response with its `ok` flag; `json` is what `await response.json()` gives, `none`
  when that promise rejects. -/
  | response (ok : Bool) (json : Option JVal)

/-- The CRM as seen by a handler. -/
abbrev Crm := Call → FetchResult

/-- The JSON body of the answer, by kind. -/
inductive ResBody where
  | methodNotAllowed
  | noQuestions (rawBody : JVal)
  | domainNotProvided (fieldId : String) (receivedFields : List JVal)
  | companyNotFound (domain : JVal)
  | listEntryNotFound (domain companyId : JVal)
  | noFieldsToUpdate (receivedFields : List JVal)
  | success (domain companyId entryId : JVal) (values : UpdateSet)
  | internalError
  | routeExists
  | webhookReceived

/-- What a request leads to: the CRM requests issued, in order, and the HTTP answer. -/
structure Outcome where
  calls : List Call
  status : Nat
  body : ResBody

/-- The outcome of what follows a request to the CRM: the request comes first among the
calls. -/
def Outcome.after (o : Outcome) (call : Call) : Outcome :=
  ⟨call :: o.calls, o.status, o.body⟩

/-- The `catch` branch: `res.status(500).json({success: false, ...})`. -/
def internalError (calls : List Call) : Outcome :=
  ⟨calls, 500, .internalError⟩

/-- The expression `data[0].id.field` (`field` is `record_id` or `entry_id`). -/
def firstId (data : JVal) (field : String) : Option JVal :=
  match index0 data with
  | none => none
  | some first =>
    match getProp first "id" with
    | none => none
    | some i => getProp i field

/-! ## `src/index.js`: the Express route `app.post("/webhook")` -/

namespace Index

/-- The constants of lines 10–18; `ATTIO_API_KEY` is read from the environment. -/
def config (apiKey : String) : Config where
  ATTIO_API_KEY := apiKey
  ATTIO_LIST_ID := "e2f1f046-d64f-4b4a-8e90-25b7c10140ba"
  FILLOUT_DOMAIN_FIELD_ID := "6aYW"
  ATTIO_DOMAIN_ATTRIBUTE := "domains"
  FILLOUT_FIELD_MAPPINGS := [("wrV6", "hdd_evaluation_1"), ("6rxp", "hdd_evaluation_2")]

/-- Third branch of the normalisation (lines 51–57):
`filloutData.response && Array.isArray(filloutData.response.questions)`; the array of
questions when the test holds, the initial `[]` otherwise. -/
def wrappedQuestions (filloutData : JVal) : List JVal :=
  if (filloutData.prop "response").truthy then
    match (filloutData.prop "response").prop "questions" with
    | arr questions => questions
    | _ => []
  else []

/-- Lines 39–57: the array `responses` found in the body, `none` when a `TypeError` is
thrown on the way. -/
def normalize (filloutData : JVal) : Option (List JVal) :=
  match getProp filloutData "questions" with
  | none => none
  | some (arr questions) => some questions
  | some _ =>
    match filloutData.prop "responses" with
    | arr (first :: _) =>
      match getProp first "questions" with
      | none => none
      | some (arr questions) => some questions
      | some _ => some (wrappedQuestions filloutData)
    | _ => some (wrappedQuestions filloutData)

/-- The array `responses.map((q) => ({id: q.id, name: q.name, value: q.value}))`. -/
def receivedFields : List JVal → Option (List JVal)
  | [] => some []
  | q :: rest =>
    match getProp q "id" with
    | none => none
    | some i =>
      match receivedFields rest with
      | none => none
      | some fields =>
        some (obj [("id", i), ("name", q.prop "name"), ("value", q.prop "value")] :: fields)

/-- Lines 179–189: the loop over `Object.entries(FILLOUT_FIELD_MAPPINGS)`. -/
def explicitMapping (responses : List JVal) :
    List (String × String) → UpdateData → Option UpdateData
  | [], updateData => some updateData
  | (filloutFieldId, attioAttribute) :: rest, updateData =>
    match findById responses filloutFieldId with
    | none => none
    | some question =>
      if question.truthy && !(question.prop "value").isNullish then
        -- the log line prints `question.name` and `question.value`
        match toStr (question.prop "name"), toStr (question.prop "value") with
        | some _, some _ =>
          explicitMapping responses rest
            (assign updateData attioAttribute (question.prop "value"))
        | _, _ => none
      else
        explicitMapping responses rest updateData

/-- Lines 195–201: the loop `for (const question of responses)` of the automatic mapping. -/
def automaticMapping (domainFieldId : String) : List JVal → UpdateData → Option UpdateData
  | [], updateData => some updateData
  | question :: rest, updateData =>
    match getProp question "id" with
    | none => none
    | some i =>
      if !strictEq i domainFieldId && (question.prop "value").truthy then
        let attributeName :=
          if (question.prop "name").truthy then question.prop "name" else question.prop "id"
        match toPropertyKey attributeName with
        | none => none
        | some key =>
          -- the log line prints `attributeName` and `question.value`
          match toStr (question.prop "value") with
          | none => none
          | some _ =>
            automaticMapping domainFieldId rest
              (assign updateData key (question.prop "value"))
      else
        automaticMapping domainFieldId rest updateData

/-- Lines 177–202 (PASO 3): the object `updateData` sent to the CRM. -/
def updateData (cfg : Config) (responses : List JVal) : Option UpdateSet :=
  match explicitMapping responses cfg.FILLOUT_FIELD_MAPPINGS UpdateData.empty with
  | none => none
  | some explicit =>
    if explicit.own.isEmpty then
      match automaticMapping cfg.FILLOUT_DOMAIN_FIELD_ID responses explicit with
      | none => none
      | some automatic => some automatic.own
    else some explicit.own

/-- Lines 176–254 (PASO 3 and PASO 4): the field mapping, the last client error and the PATCH, once the
list entry `entryId` is known.  The calls of the outcome are those of this step. -/
def paso3 (cfg : Config) (responses : List JVal) (domain companyId entryId : JVal)
    (crm : Crm) : Outcome :=
  match updateData cfg responses with
  | none => internalError []
  | some values =>
  if values.isEmpty then
    match receivedFields responses with
    | none => internalError []
    | some fields => ⟨[], 400, .noFieldsToUpdate fields⟩
  else
  -- PASO 4
  let update := Call.patchEntry cfg.ATTIO_API_KEY cfg.ATTIO_LIST_ID entryId values
  match crm update with
  | .rejected => internalError [update]
  | .response false _ => internalError [update]
  | .response true none => internalError [update]
  | .response true (some _) => ⟨[update], 200, .success domain companyId entryId values⟩

/-- Lines 132–174 (PASO 2): the list-entry query, once the company `companyId` is known, and
what follows it. -/
def paso2 (cfg : Config) (responses : List JVal) (domain companyId : JVal) (crm : Crm) :
    Outcome :=
  let searchList := Call.listQuery cfg.ATTIO_API_KEY cfg.ATTIO_LIST_ID companyId
  match crm searchList with
  | .rejected => internalError [searchList]
  | .response false _ => internalError [searchList]
  | .response true none => internalError [searchList]
  | .response true (some listData) =>
  match getProp listData "data" with
  | none => internalError [searchList]
  | some entries =>
  if !entries.truthy || entries.lengthIsZero then
    ⟨[searchList], 404, .listEntryNotFound domain companyId⟩
  else
  match firstId entries "entry_id" with
  | none => internalError [searchList]
  | some entryId =>
  -- the log line prints `entryId`
  match toStr entryId with
  | none => internalError [searchList]
  | some _ => (paso3 cfg responses domain companyId entryId crm).after searchList

/-- Lines 94–130 (PASO 1): the company query for the domain, and what follows it. -/
def paso1 (cfg : Config) (responses : List JVal) (domain : JVal) (crm : Crm) : Outcome :=
  let searchCompany := Call.companyQuery cfg.ATTIO_API_KEY cfg.ATTIO_DOMAIN_ATTRIBUTE domain
  match crm searchCompany with
  | .rejected => internalError [searchCompany]
  | .response false _ => internalError [searchCompany]
  | .response true none => internalError [searchCompany]
  | .response true (some companyData) =>
  match getProp companyData "data" with
  | none => internalError [searchCompany]
  | some companies =>
  if !companies.truthy || companies.lengthIsZero then
    ⟨[searchCompany], 404, .companyNotFound domain⟩
  else
  match firstId companies "record_id" with
  | none => internalError [searchCompany]
  | some companyId =>
  -- the log line prints `companyId`
  match toStr companyId with
  | none => internalError [searchCompany]
  | some _ => (paso2 cfg responses domain companyId crm).after searchCompany

/-- Lines 25–264: the handler of `POST /webhook`, for the constants `cfg`, the parsed body
`req.body` and the CRM `crm`. -/
def webhookWith (cfg : Config) (filloutData : JVal) (crm : Crm) : Outcome :=
  if !cfg.present then internalError []
  else
  match normalize filloutData with
  | none => internalError []
  | some responses =>
  if responses.isEmpty then ⟨[], 400, .noQuestions filloutData⟩
  else
  match findById responses cfg.FILLOUT_DOMAIN_FIELD_ID with
  | none => internalError []
  | some domainQuestion =>
  let domain := domainQuestion.optProp "value"
  if !domain.truthy then
    match receivedFields responses with
    | none => internalError []
    | some fields => ⟨[], 400, .domainNotProvided cfg.FILLOUT_DOMAIN_FIELD_ID fields⟩
  else
  -- the log line prints `domain`
  match toStr domain with
  | none => internalError []
  | some _ => paso1 cfg responses domain crm

/-- The handler of `POST /webhook` with the constants of the file. -/
def webhook (apiKey : String) (filloutData : JVal) (crm : Crm) : Outcome :=
  webhookWith (config apiKey) filloutData crm

end Index

/-! ## `src/api/webhook.js`: the serverless `handler` -/

namespace Api

/-- Lines 14–27: the constants read from `process.env` (an unset variable is `""`), with the
default of `ATTIO_DOMAIN_ATTRIBUTE` and the table `FILLOUT_FIELD_MAPPINGS`, which has no
entry. -/
def config (domainFieldId domainAttribute apiKey listId : String) : Config where
  ATTIO_API_KEY := apiKey
  ATTIO_LIST_ID := listId
  FILLOUT_DOMAIN_FIELD_ID := domainFieldId
  ATTIO_DOMAIN_ATTRIBUTE := if domainAttribute != "" then domainAttribute else "domains"
  FILLOUT_FIELD_MAPPINGS := []

/-- Line 35: `const responses = filloutData.questions || []`. -/
def responses (filloutData : JVal) : Option JVal :=
  match getProp filloutData "questions" with
  | none => none
  | some questions => some (if questions.truthy then questions else arr [])

/-- The receiver of `responses.find(...)` (line 36): the elements when `responses` is an
array; for any other value `responses.find` is not a function and the call throws. -/
def elements : JVal → Option (List JVal)
  | arr xs => some xs
  | _ => none

/-- Line 43: the array `responses.map(q => ({ id: q.id, name: q.name }))`. -/
def receivedNames : List JVal → Option (List JVal)
  | [] => some []
  | q :: rest =>
    match getProp q "id" with
    | none => none
    | some i =>
      match receivedNames rest with
      | none => none
      | some fields => some (obj [("id", i), ("name", q.prop "name")] :: fields)

/-- Line 162: the array `responses.map(q => ({ id: q.id, name: q.name, value: q.value }))`. -/
def receivedFields : List JVal → Option (List JVal)
  | [] => some []
  | q :: rest =>
    match getProp q "id" with
    | none => none
    | some i =>
      match receivedFields rest with
      | none => none
      | some fields =>
        some (obj [("id", i), ("name", q.prop "name"), ("value", q.prop "value")] :: fields)

/-- Lines 137–143: the loop over `Object.entries(FILLOUT_FIELD_MAPPINGS)`. -/
def explicitMapping (responses : List JVal) :
    List (String × String) → UpdateData → Option UpdateData
  | [], updateData => some updateData
  | (filloutFieldId, attioAttribute) :: rest, updateData =>
    match findById responses filloutFieldId with
    | none => none
    | some question =>
      if question.truthy && !(question.prop "value").isNullish then
        -- the log line prints `question.name` and `question.value`
        match toStr (question.prop "name"), toStr (question.prop "value") with
        | some _, some _ =>
          explicitMapping responses rest
            (assign updateData attioAttribute (question.prop "value"))
        | _, _ => none
      else
        explicitMapping responses rest updateData

/-- Lines 148–154: the loop `for (const question of responses)` of the automatic mapping. -/
def automaticMapping (domainFieldId : String) : List JVal → UpdateData → Option UpdateData
  | [], updateData => some updateData
  | question :: rest, updateData =>
    match getProp question "id" with
    | none => none
    | some i =>
      if !strictEq i domainFieldId && (question.prop "value").truthy then
        let attributeName :=
          if (question.prop "name").truthy then question.prop "name" else question.prop "id"
        match toPropertyKey attributeName with
        | none => none
        | some key =>
          -- the log line prints `attributeName` and `question.value`
          match toStr (question.prop "value") with
          | none => none
          | some _ =>
            automaticMapping domainFieldId rest
              (assign updateData key (question.prop "value"))
      else
        automaticMapping domainFieldId rest updateData

/-- Lines 134–155 (PASO 3): the object `updateData` sent to the CRM. -/
def updateData (cfg : Config) (responses : List JVal) : Option UpdateSet :=
  match explicitMapping responses cfg.FILLOUT_FIELD_MAPPINGS UpdateData.empty with
  | none => none
  | some explicit =>
    if explicit.own.isEmpty then
      match automaticMapping cfg.FILLOUT_DOMAIN_FIELD_ID responses explicit with
      | none => none
      | some automatic => some automatic.own
    else some explicit.own

/-- Lines 133–201 (PASO 3, PASO 4 and PASO 5): the field mapping, the last client error and the PATCH, once the
list entry `entryId` is known.  The calls of the outcome are those of this step. -/
def paso3 (cfg : Config) (responses : List JVal) (domain companyId entryId : JVal)
    (crm : Crm) : Outcome :=
  match updateData cfg responses with
  | none => internalError []
  | some values =>
  if values.isEmpty then
    match receivedFields responses with
    | none => internalError []
    | some fields => ⟨[], 400, .noFieldsToUpdate fields⟩
  else
  -- PASO 4
  let update := Call.patchEntry cfg.ATTIO_API_KEY cfg.ATTIO_LIST_ID entryId values
  match crm update with
  | .rejected => internalError [update]
  | .response false _ => internalError [update]
  | .response true none => internalError [update]
  | .response true (some _) => ⟨[update], 200, .success domain companyId entryId values⟩

/-- Lines 92–131 (PASO 2): the list-entry query, once the company `companyId` is known, and
what follows it. -/
def paso2 (cfg : Config) (responses : List JVal) (domain companyId : JVal) (crm : Crm) :
    Outcome :=
  let searchList := Call.listQuery cfg.ATTIO_API_KEY cfg.ATTIO_LIST_ID companyId
  match crm searchList with
  | .rejected => internalError [searchList]
  | .response false _ => internalError [searchList]
  | .response true none => internalError [searchList]
  | .response true (some listData) =>
  match getProp listData "data" with
  | none => internalError [searchList]
  | some entries =>
  if !entries.truthy || entries.lengthIsZero then
    ⟨[searchList], 404, .listEntryNotFound domain companyId⟩
  else
  match firstId entries "entry_id" with
  | none => internalError [searchList]
  | some entryId =>
  -- the log line prints `entryId`
  match toStr entryId with
  | none => internalError [searchList]
  | some _ => (paso3 cfg responses domain companyId entryId crm).after searchList

/-- Lines 54–90 (PASO 1): the company query for the domain, and what follows it. -/
def paso1 (cfg : Config) (responses : List JVal) (domain : JVal) (crm : Crm) : Outcome :=
  let searchCompany := Call.companyQuery cfg.ATTIO_API_KEY cfg.ATTIO_DOMAIN_ATTRIBUTE domain
  match crm searchCompany with
  | .rejected => internalError [searchCompany]
  | .response false _ => internalError [searchCompany]
  | .response true none => internalError [searchCompany]
  | .response true (some companyData) =>
  match getProp companyData "data" with
  | none => internalError [searchCompany]
  | some companies =>
  if !companies.truthy || companies.lengthIsZero then
    ⟨[searchCompany], 404, .companyNotFound domain⟩
  else
  match firstId companies "record_id" with
  | none => internalError [searchCompany]
  | some companyId =>
  -- the log line prints `companyId`
  match toStr companyId with
  | none => internalError [searchCompany]
  | some _ => (paso2 cfg responses domain companyId crm).after searchCompany

/-- Lines 4–213: the handler, for the constants `cfg`, the method `req.method`, the body
`req.body` and the CRM `crm`. -/
def handlerWith (cfg : Config) (method : String) (filloutData : JVal) (crm : Crm) : Outcome :=
  if method != "POST" then ⟨[], 405, .methodNotAllowed⟩
  else
  if !cfg.present then internalError []
  else
  match responses filloutData with
  | none => internalError []
  | some found =>
  match elements found with
  | none => internalError []
  | some responses =>
  match findById responses cfg.FILLOUT_DOMAIN_FIELD_ID with
  | none => internalError []
  | some domainQuestion =>
  let domain := domainQuestion.optProp "value"
  if !domain.truthy then
    match receivedNames responses with
    | none => internalError []
    | some fields => ⟨[], 400, .domainNotProvided cfg.FILLOUT_DOMAIN_FIELD_ID fields⟩
  else
  -- the log line prints `domain`
  match toStr domain with
  | none => internalError []
  | some _ => paso1 cfg responses domain crm

/-- The handler with the constants of the file, read from the environment. -/
def handler (domainFieldId domainAttribute apiKey listId : String)
    (method : String) (filloutData : JVal) (crm : Crm) : Outcome :=
  handlerWith (config domainFieldId domainAttribute apiKey listId) method filloutData crm

end Api

/-! ## `src/pages/api/webhook.js`: the stub `handler` -/

namespace Pages

/-- Lines 3–15: the handler answers 200 to every request and calls nothing. -/
def handler (method : String) (_body : JVal) (_crm : Crm) : Outcome :=
  if method != "POST" then ⟨[], 200, .routeExists⟩
  else ⟨[], 200, .webhookReceived⟩

end Pages

/-! ## The example payload of the specification (§8) -/

/-- The payload `{questions: [{id: "6aYW", name: "domain", value: "acme.com"},
{id: "wrV6", name: "q1", value: "yes"}]}`. -/
def exampleQuestions : List JVal :=
  [obj [("id", str "6aYW"), ("name", str "domain"), ("value", str "acme.com")],
   obj [("id", str "wrV6"), ("name", str "q1"), ("value", str "yes")]]

/-- A CRM that knows one company and one list entry and accepts every update. -/
def exampleCrm : Crm
  | .companyQuery _ _ _ =>
    .response true (some (obj [("data", arr [obj [("id", obj [("record_id", str "c-1")])]])]))
  | .listQuery _ _ _ =>
    .response true (some (obj [("data", arr [obj [("id", obj [("entry_id", str "e-1")])]])]))
  | .patchEntry _ _ _ _ => .response true (some (obj []))

/-! ## The words of the specification, as definitions

These follow the specification (§3, §4.1, §4.4), not the code; the theorems below compare
them with the handlers. -/

/-- A submission: an ordered sequence of question/answer pairs; no element is `null` or
`undefined`. -/
def IsSubmission (qs : List JVal) : Prop :=
  ∀ q ∈ qs, q.isNullish = false

/-- The first question of the submission whose `id` is `fieldId`, if there is one. -/
def firstWithId (qs : List JVal) (fieldId : String) : Option JVal :=
  qs.find? (fun q => strictEq (q.prop "id") fieldId)

/-- The attribute an automatically mapped question is keyed by: "its name (or id if name
absent)", as a property key; `none` when the name (or id) has no string form. -/
def attributeName (q : JVal) : Option String :=
  toPropertyKey (if (q.prop "name").truthy then q.prop "name" else q.prop "id")

/-- Explicit mapping, §4.4: "for each mapping entry whose question id is present with a
non-null/non-undefined value, add attribute→value", in the order of the table; the question
of an entry is the first one carrying the entry's id. -/
def explicitEntries (qs : List JVal) (mappings : List (String × String)) :
    List (String × JVal) :=
  mappings.filterMap fun m =>
    match firstWithId qs m.1 with
    | some q => if (q.prop "value").isNullish then none else some (m.2, q.prop "value")
    | none => none

/-- Whether automatic mode takes a question, §4.4: "every question (except the domain
question) whose value is truthy". -/
def autoMapped (domainFieldId : String) (q : JVal) : Bool :=
  !strictEq (q.prop "id") domainFieldId && (q.prop "value").truthy

/-- Automatic mapping, §4.4: "add every question (except the domain question) whose value is
truthy, keyed by its name (or id if name absent)", in the order of the submission. -/
def automaticEntries (domainFieldId : String) (qs : List JVal) : List (String × JVal) :=
  (qs.filter (autoMapped domainFieldId)).filterMap fun q =>
    (attributeName q).map fun a => (a, q.prop "value")

/-- The value a sequence of writes leaves for attribute `a`: "last write wins". -/
def lastWrite : List (String × JVal) → String → Option JVal
  | [], _ => none
  | (k, v) :: rest, a =>
    match lastWrite rest a with
    | some w => some w
    | none => if k == a then some v else none

/-- The object `updateData` after the writes `entries`, applied in order to `u`. -/
def applyEntries (u : UpdateData) (entries : List (String × JVal)) : UpdateData :=
  entries.foldl (fun acc e => assign acc e.1 e.2) u

/-- The attributes of an update set. -/
def UpdateSet.keys (u : UpdateSet) : List String := u.map Prod.fst

/-- The nested array of questions of a wrapper, when it holds one. -/
def nestedQuestions (wrapper : JVal) : Option (List JVal) :=
  match wrapper.prop "questions" with
  | arr questions => some questions
  | _ => none

/-- The normaliser in the words of §4.1: "Attempts, in order: (a) a direct field holding an
array of question objects; (b) a field holding an array of per-response wrappers, taking
the first wrapper's nested question array; (c) a singular wrapped-response object's nested
question array.  Returns the first structurally valid match, or an empty sequence if none
match". -/
def specNormalize (body : JVal) : List JVal :=
  match nestedQuestions body with
  | some questions => questions
  | none =>
    match (match body.prop "responses" with
        | arr (first :: _) => nestedQuestions first
        | _ => none) with
    | some questions => questions
    | none => (nestedQuestions (body.prop "response")).getD []

/-- The question `q` is one an entry `a ↦ v` of the UpdateSet originates from: `v` is the
value of `q`, and either a mapping entry that writes `a` finds `q`, or the automatic
mapping takes `q` and keys it by `a`. -/
def Originates (cfg : Config) (qs : List JVal) (a : String) (v q : JVal) : Prop :=
  q.prop "value" = v
  ∧ ((∃ m ∈ cfg.FILLOUT_FIELD_MAPPINGS, m.2 = a ∧ firstWithId qs m.1 = some q)
    ∨ (q ∈ qs ∧ autoMapped cfg.FILLOUT_DOMAIN_FIELD_ID q = true ∧ attributeName q = some a))

/-- The invariant of §3: every entry of the UpdateSet originates from a question, and from
no question whose id is the configured domain question id. -/
def NoEntryFromDomainQuestion (cfg : Config) (qs : List JVal) (u : UpdateSet) : Prop :=
  ∀ a v, UpdateSet.get u a = some v →
    (∃ q, Originates cfg qs a v q)
    ∧ ∀ q, Originates cfg qs a v q →
        strictEq (q.prop "id") cfg.FILLOUT_DOMAIN_FIELD_ID = false

/-! ## Configurations, payloads and CRMs used as examples -/

/-- Configuration of the examples of the specification: the domain question `6aYW` and the
mapping table `{wrV6: "hdd_evaluation_1"}`. -/
def exampleConfig : Config where
  ATTIO_API_KEY := "key"
  ATTIO_LIST_ID := "list"
  FILLOUT_DOMAIN_FIELD_ID := "6aYW"
  ATTIO_DOMAIN_ATTRIBUTE := "domains"
  FILLOUT_FIELD_MAPPINGS := [("wrV6", "hdd_evaluation_1")]

/-- Configuration of the second example of the specification: the domain question `6aYW`
and an empty mapping table, which is the table of `src/api/webhook.js`. -/
def emptyTableConfig : Config := Api.config "6aYW" "" "key" "list"

/-- A mapping table that maps the domain question itself: `{"6aYW": "domains"}`. -/
def domainMappedConfig : Config where
  ATTIO_API_KEY := "key"
  ATTIO_LIST_ID := "list"
  FILLOUT_DOMAIN_FIELD_ID := "6aYW"
  ATTIO_DOMAIN_ATTRIBUTE := "domains"
  FILLOUT_FIELD_MAPPINGS := [("6aYW", "domains")]

/-- A submission without the domain question. -/
def noDomainQuestions : List JVal :=
  [obj [("id", str "wrV6"), ("name", str "q1"), ("value", str "yes")]]

/-- A submission in which the id `wrV6` occurs twice: first with the value `null`, then
with the value `"yes"`. -/
def repeatedQuestions : List JVal :=
  [obj [("id", str "6aYW"), ("name", str "domain"), ("value", str "acme.com")],
   obj [("id", str "wrV6"), ("name", str "q1"), ("value", null)],
   obj [("id", str "wrV6"), ("name", str "q1"), ("value", str "yes")]]

/-- A submission in which the explicitly mapped id `wrV6` occurs twice, with the values
`"first"` and `"last"`. -/
def twiceAnswered : List JVal :=
  [obj [("id", str "6aYW"), ("name", str "domain"), ("value", str "acme.com")],
   obj [("id", str "wrV6"), ("name", str "q1"), ("value", str "first")],
   obj [("id", str "wrV6"), ("name", str "q1"), ("value", str "last")]]

/-- The body `{"responses": [null]}`. -/
def nullWrapperBody : JVal := obj [("responses", arr [null])]

/-- A CRM in which no company matches: the query succeeds with `{data: []}`. -/
def emptyCrm : Crm
  | _ => .response true (some (obj [("data", arr [])]))

/-- A CRM that knows the company and has no list entry for it. -/
def noEntryCrm : Crm
  | .companyQuery _ _ _ =>
    .response true (some (obj [("data", arr [obj [("id", obj [("record_id", str "c-1")])]])]))
  | _ => .response true (some (obj [("data", arr [])]))

/-- The body `{"questions": [null]}`. -/
def nullQuestionBody : JVal := obj [("questions", arr [null])]

/-- The body `{"questions": [{"id": "6aYW", "value": ""}, null]}`. -/
def emptyDomainBody : JVal :=
  obj [("questions", arr [obj [("id", str "6aYW"), ("value", str "")], null])]

/-- A submission whose second question is named `__proto__`. -/
def protoNamedQuestions : List JVal :=
  [obj [("id", str "6aYW"), ("name", str "domain"), ("value", str "acme.com")],
   obj [("id", str "wrV6"), ("name", str "__proto__"), ("value", str "yes")]]

/-! ## Lemmas on `updateData[k] = v` -/

theorem get_setProp_self (u : UpdateSet) (k : String) (v : JVal) :
    UpdateSet.get (setProp u k v) k = some v := by
  induction u with
  | nil => simp [setProp, UpdateSet.get]
  | cons e rest ih =>
    obtain ⟨k', v'⟩ := e
    by_cases h : k' = k
    · simp [setProp, UpdateSet.get, h]
    · simp [setProp, UpdateSet.get, h, ih]

theorem get_setProp_of_ne (u : UpdateSet) (k a : String) (v : JVal) (h : k ≠ a) :
    UpdateSet.get (setProp u k v) a = UpdateSet.get u a := by
  induction u with
  | nil => simp [setProp, UpdateSet.get, h]
  | cons e rest ih =>
    obtain ⟨k', v'⟩ := e
    by_cases hk : k' = k
    · subst hk
      simp [setProp, UpdateSet.get, h]
    · by_cases ha : k' = a
      · subst ha
        simp [setProp, UpdateSet.get, hk]
      · simp [setProp, UpdateSet.get, hk, ha, ih]

theorem keys_setProp (u : UpdateSet) (k : String) (v : JVal) :
    UpdateSet.keys (setProp u k v)
      = if k ∈ UpdateSet.keys u then UpdateSet.keys u else UpdateSet.keys u ++ [k] := by
  induction u with
  | nil => simp [setProp, UpdateSet.keys]
  | cons e rest ih =>
    obtain ⟨k', v'⟩ := e
    simp only [UpdateSet.keys] at ih
    by_cases hk : k' = k
    · subst hk
      simp [setProp, UpdateSet.keys]
    · have hk2 : ¬ k = k' := fun h => hk h.symm
      by_cases hm : k ∈ List.map Prod.fst rest
      · simp [setProp, UpdateSet.keys, hk, hk2, ih, hm]
      · simp [setProp, UpdateSet.keys, hk, hk2, ih, hm]

theorem keys_nodup_setProp (u : UpdateSet) (k : String) (v : JVal)
    (h : (UpdateSet.keys u).Nodup) : (UpdateSet.keys (setProp u k v)).Nodup := by
  rw [keys_setProp]
  split
  · exact h
  · rename_i hk
    exact List.Nodup.append h (List.nodup_singleton k) (by simpa using hk)

theorem setProp_ne_nil (u : UpdateSet) (k : String) (v : JVal) : setProp u k v ≠ [] := by
  cases u with
  | nil => simp [setProp]
  | cons e rest =>
    obtain ⟨k', v'⟩ := e
    simp only [setProp]
    split <;> simp

/-- What an assignment does to the own properties: it writes the own property `k`, or leaves
the own properties as they are (only possible for the key `__proto__`). -/
theorem assign_own (u : UpdateData) (k : String) (v : JVal) :
    (assign u k v).own = setProp u.own k v
      ∨ ((assign u k v).own = u.own ∧ k = "__proto__") := by
  unfold assign
  by_cases hk : k = "__proto__"
  · subst hk
    simp only [beq_self_eq_true, if_true]
    split
    · exact Or.inl rfl
    · split
      · cases v <;> simp
      · exact Or.inl rfl
  · simp [hk]

theorem assign_own_of_ne (u : UpdateData) (k : String) (v : JVal) (hk : k ≠ "__proto__") :
    (assign u k v).own = setProp u.own k v := by
  rcases assign_own u k v with h | ⟨_, h⟩
  · exact h
  · exact absurd h hk

theorem get_assign_self (u : UpdateData) (k : String) (v : JVal) (hk : k ≠ "__proto__") :
    UpdateSet.get (assign u k v).own k = some v := by
  rw [assign_own_of_ne u k v hk, get_setProp_self]

theorem get_assign_of_ne (u : UpdateData) (k a : String) (v : JVal) (h : k ≠ a) :
    UpdateSet.get (assign u k v).own a = UpdateSet.get u.own a := by
  rcases assign_own u k v with h1 | ⟨h1, _⟩
  · rw [h1, get_setProp_of_ne _ _ _ _ h]
  · rw [h1]

/-- An own property found after an assignment was written by it or was there before. -/
theorem get_assign_some (u : UpdateData) (k a : String) (v w : JVal)
    (h : UpdateSet.get (assign u k v).own a = some w) :
    (a = k ∧ w = v) ∨ UpdateSet.get u.own a = some w := by
  by_cases hk : k = a
  · subst hk
    rcases assign_own u k v with h1 | ⟨h1, _⟩
    · rw [h1, get_setProp_self] at h
      simp only [Option.some.injEq] at h
      exact Or.inl ⟨rfl, h.symm⟩
    · rw [h1] at h
      exact Or.inr h
  · rw [get_assign_of_ne u k a v hk] at h
    exact Or.inr h

theorem keys_nodup_assign (u : UpdateData) (k : String) (v : JVal)
    (h : (UpdateSet.keys u.own).Nodup) : (UpdateSet.keys (assign u k v).own).Nodup := by
  rcases assign_own u k v with h1 | ⟨h1, _⟩
  · rw [h1]
    exact keys_nodup_setProp _ _ _ h
  · rw [h1]
    exact h

/-- Own properties are never removed. -/
theorem assign_own_ne_nil (u : UpdateData) (k : String) (v : JVal) (h : u.own ≠ []) :
    (assign u k v).own ≠ [] := by
  rcases assign_own u k v with h1 | ⟨h1, _⟩
  · rw [h1]
    exact setProp_ne_nil _ _ _
  · rw [h1]
    exact h

theorem applyEntries_cons (u : UpdateData) (e : String × JVal) (es : List (String × JVal)) :
    applyEntries u (e :: es) = applyEntries (assign u e.1 e.2) es := rfl

theorem applyEntries_nil (u : UpdateData) : applyEntries u [] = u := rfl

/-- For every attribute but `__proto__`, the own property left by a sequence of writes is
the one of the last write to that attribute. -/
theorem get_applyEntries (es : List (String × JVal)) (u : UpdateData) (a : String)
    (ha : a ≠ "__proto__") :
    UpdateSet.get (applyEntries u es).own a
      = match lastWrite es a with
        | some w => some w
        | none => UpdateSet.get u.own a := by
  induction es generalizing u with
  | nil => simp [applyEntries, lastWrite]
  | cons e rest ih =>
    obtain ⟨k, v⟩ := e
    rw [applyEntries_cons, ih]
    simp only [lastWrite]
    cases hl : lastWrite rest a with
    | some w => simp
    | none =>
      by_cases hk : k = a
      · subst hk
        simp [get_assign_self _ _ _ ha]
      · simp [hk, get_assign_of_ne _ _ _ _ hk]

/-- An own property found after a sequence of writes was written by one of them or was
there before. -/
theorem get_applyEntries_some (es : List (String × JVal)) (u : UpdateData) (a : String)
    (w : JVal) (h : UpdateSet.get (applyEntries u es).own a = some w) :
    (a, w) ∈ es ∨ UpdateSet.get u.own a = some w := by
  induction es generalizing u with
  | nil => exact Or.inr h
  | cons e rest ih =>
    obtain ⟨k, v⟩ := e
    rw [applyEntries_cons] at h
    rcases ih _ h with h1 | h1
    · exact Or.inl (List.mem_cons_of_mem _ h1)
    · rcases get_assign_some u k a v w h1 with ⟨h2, h3⟩ | h2
      · subst h2
        subst h3
        exact Or.inl (List.mem_cons_self _ _)
      · exact Or.inr h2

theorem keys_nodup_applyEntries (es : List (String × JVal)) (u : UpdateData)
    (h : (UpdateSet.keys u.own).Nodup) : (UpdateSet.keys (applyEntries u es).own).Nodup := by
  induction es generalizing u with
  | nil => simpa [applyEntries] using h
  | cons e rest ih =>
    rw [applyEntries_cons]
    exact ih _ (keys_nodup_assign u e.1 e.2 h)

theorem applyEntries_own_ne_nil (es : List (String × JVal)) (u : UpdateData)
    (h : u.own ≠ []) : (applyEntries u es).own ≠ [] := by
  induction es generalizing u with
  | nil => exact h
  | cons e rest ih =>
    rw [applyEntries_cons]
    exact ih _ (assign_own_ne_nil u e.1 e.2 h)

/-- One write to an attribute other than `__proto__` leaves `updateData` with an own
property. -/
theorem applyEntries_own_ne_nil_of_mem (es : List (String × JVal)) (u : UpdateData)
    (e : String × JVal) (he : e ∈ es) (hk : e.1 ≠ "__proto__") :
    (applyEntries u es).own ≠ [] := by
  induction es generalizing u with
  | nil => simp at he
  | cons e' rest ih =>
    rw [applyEntries_cons]
    rcases List.mem_cons.mp he with h | h
    · subst h
      apply applyEntries_own_ne_nil
      rw [assign_own_of_ne u e.1 e.2 hk]
      exact setProp_ne_nil _ _ _
    · exact ih _ h

/-- An attribute recorded in an update set has a value, and conversely. -/
theorem mem_keys_iff_get (u : UpdateSet) (a : String) :
    a ∈ UpdateSet.keys u ↔ ∃ v, UpdateSet.get u a = some v := by
  induction u with
  | nil => simp [UpdateSet.keys, UpdateSet.get]
  | cons e rest ih =>
    obtain ⟨k, v⟩ := e
    simp only [UpdateSet.keys] at ih
    by_cases hk : k = a
    · subst hk
      simp [UpdateSet.keys, UpdateSet.get]
    · have hk2 : ¬ a = k := fun h => hk h.symm
      simp [UpdateSet.keys, UpdateSet.get, hk, hk2, ih]

/-- A value left by `lastWrite` was written by one of the entries. -/
theorem lastWrite_mem (es : List (String × JVal)) (a : String) (w : JVal)
    (h : lastWrite es a = some w) : (a, w) ∈ es := by
  induction es with
  | nil => simp [lastWrite] at h
  | cons e rest ih =>
    obtain ⟨k, v⟩ := e
    simp only [lastWrite] at h
    cases hl : lastWrite rest a with
    | some w2 =>
      rw [hl] at h
      simp only [Option.some.injEq] at h
      subst h
      exact List.mem_cons_of_mem _ (ih hl)
    | none =>
      rw [hl] at h
      by_cases hk : k = a
      · subst hk
        simp at h
        subst h
        exact List.mem_cons_self _ _
      · simp [hk] at h

/-- Every attribute written has a value under `lastWrite`. -/
theorem lastWrite_isSome_of_mem (es : List (String × JVal)) (a : String) (v : JVal)
    (h : (a, v) ∈ es) : ∃ w, lastWrite es a = some w := by
  induction es with
  | nil => simp at h
  | cons e rest ih =>
    obtain ⟨k, v2⟩ := e
    simp only [lastWrite]
    cases hl : lastWrite rest a with
    | some w => exact ⟨w, rfl⟩
    | none =>
      rcases List.mem_cons.mp h with h1 | h1
      · simp only [Prod.mk.injEq] at h1
        obtain ⟨h1, _⟩ := h1
        subst h1
        exact ⟨v2, by simp⟩
      · obtain ⟨w, hw⟩ := ih h1
        rw [hl] at hw
        simp at hw

/-- The last entry written for an attribute is the one that stays. -/
theorem lastWrite_append_last (pre post : List (String × JVal)) (a : String) (v : JVal)
    (h : ∀ e ∈ post, e.1 ≠ a) : lastWrite (pre ++ (a, v) :: post) a = some v := by
  have hpost : lastWrite post a = none := by
    induction post with
    | nil => rfl
    | cons e rest ih =>
      obtain ⟨k, w⟩ := e
      have hk : k ≠ a := h (k, w) (List.mem_cons_self _ _)
      have := ih (fun e he => h e (List.mem_cons_of_mem _ he))
      simp [lastWrite, this, hk]
  induction pre with
  | nil => simp [lastWrite, hpost]
  | cons e rest ih =>
    obtain ⟨k, w⟩ := e
    simp [lastWrite, ih]

/-! ## The loops of the handlers, in the words of the specification -/

theorem getProp_of_not_nullish (q : JVal) (k : String) (h : q.isNullish = false) :
    getProp q k = some (q.prop k) := by
  simp [getProp, h]

theorem getProp_eq_some (q v : JVal) (k : String) (h : getProp q k = some v) :
    q.isNullish = false ∧ v = q.prop k := by
  unfold getProp at h
  cases hn : q.isNullish with
  | true => simp [hn] at h
  | false =>
    simp only [hn, Bool.false_eq_true, if_false, Option.some.injEq] at h
    exact ⟨rfl, h.symm⟩

/-- A value whose `id` is strictly equal to a string is an object: it is truthy. -/
theorem truthy_of_strictEq_id (q : JVal) (fieldId : String)
    (h : strictEq (q.prop "id") fieldId = true) : q.truthy = true ∧ q.isNullish = false := by
  cases q <;> simp_all [JVal.prop, strictEq, truthy, isNullish]

theorem findById_eq (qs : List JVal) (fieldId : String) (hqs : IsSubmission qs) :
    findById qs fieldId = some ((firstWithId qs fieldId).getD undefined) := by
  induction qs with
  | nil => rfl
  | cons q rest ih =>
    have hq : q.isNullish = false := hqs q (List.mem_cons_self _ _)
    have hrest : IsSubmission rest := fun x hx => hqs x (List.mem_cons_of_mem _ hx)
    simp only [findById, getProp_of_not_nullish q "id" hq, firstWithId, List.find?]
    cases hs : strictEq (q.prop "id") fieldId with
    | true => simp
    | false =>
      simp only [Bool.false_eq_true, if_false]
      rw [ih hrest]
      rfl

/-- When `find` returns, it returns the first question with the id, or `undefined`. -/
theorem findById_eq_some (qs : List JVal) (fieldId : String) (r : JVal)
    (h : findById qs fieldId = some r) : r = (firstWithId qs fieldId).getD undefined := by
  induction qs with
  | nil =>
    simp only [findById, Option.some.injEq] at h
    exact h.symm
  | cons q rest ih =>
    simp only [findById] at h
    cases hg : getProp q "id" with
    | none => simp [hg] at h
    | some i =>
      obtain ⟨_, hi⟩ := getProp_eq_some q i "id" hg
      subst hi
      simp only [hg] at h
      cases hs : strictEq (q.prop "id") fieldId with
      | true =>
        simp only [hs, if_true, Option.some.injEq] at h
        subst h
        simp [firstWithId, List.find?, hs]
      | false =>
        simp only [hs, Bool.false_eq_true, if_false] at h
        have := ih h
        simp only [firstWithId] at this
        simp [firstWithId, List.find?, hs, this]

theorem firstWithId_some (qs : List JVal) (fieldId : String) (q : JVal)
    (h : firstWithId qs fieldId = some q) :
    q ∈ qs ∧ strictEq (q.prop "id") fieldId = true := by
  unfold firstWithId at h
  exact ⟨List.mem_of_find?_eq_some h, by simpa using List.find?_some h⟩

/-- When the explicit loop completes, it has made the writes of `explicitEntries`. -/
theorem Index.explicitMapping_eq_some (qs : List JVal) (mappings : List (String × String))
    (u u' : UpdateData) (h : Index.explicitMapping qs mappings u = some u') :
    u' = applyEntries u (explicitEntries qs mappings) := by
  induction mappings generalizing u with
  | nil =>
    simp only [Index.explicitMapping, Option.some.injEq] at h
    exact h.symm
  | cons m rest ih =>
    obtain ⟨fieldId, attr⟩ := m
    simp only [Index.explicitMapping] at h
    cases hf : findById qs fieldId with
    | none => simp [hf] at h
    | some r =>
      have hr := findById_eq_some qs fieldId r hf
      simp only [hf] at h
      cases hfw : firstWithId qs fieldId with
      | none =>
        rw [hfw] at hr
        simp only [Option.getD_none] at hr
        subst hr
        have hE : explicitEntries qs ((fieldId, attr) :: rest) = explicitEntries qs rest := by
          simp [explicitEntries, hfw]
        simp only [truthy, Bool.false_and, Bool.false_eq_true, if_false] at h
        rw [hE]
        exact ih _ h
      | some q =>
        rw [hfw] at hr
        simp only [Option.getD_some] at hr
        subst hr
        have hq := truthy_of_strictEq_id r fieldId (firstWithId_some qs fieldId r hfw).2
        simp only [hq.1, Bool.true_and] at h
        cases hv : (r.prop "value").isNullish with
        | true =>
          have hE : explicitEntries qs ((fieldId, attr) :: rest) = explicitEntries qs rest := by
            simp [explicitEntries, hfw, hv]
          simp only [hv, Bool.not_true, Bool.false_eq_true, if_false] at h
          rw [hE]
          exact ih _ h
        | false =>
          have hE : explicitEntries qs ((fieldId, attr) :: rest)
              = (attr, r.prop "value") :: explicitEntries qs rest := by
            simp [explicitEntries, hfw, hv]
          simp only [hv, Bool.not_false, if_true] at h
          rw [hE, applyEntries_cons]
          split at h
          · exact ih _ h
          · simp at h

/-- The explicit loop completes on a submission whose names and values have a string
form. -/
theorem Index.explicitMapping_isSome (qs : List JVal) (hqs : IsSubmission qs)
    (hprint : ∀ q ∈ qs, toStr (q.prop "name") ≠ none ∧ toStr (q.prop "value") ≠ none)
    (mappings : List (String × String)) (u : UpdateData) :
    ∃ u', Index.explicitMapping qs mappings u = some u' := by
  induction mappings generalizing u with
  | nil => exact ⟨u, rfl⟩
  | cons m rest ih =>
    obtain ⟨fieldId, attr⟩ := m
    simp only [Index.explicitMapping, findById_eq qs fieldId hqs]
    split
    · cases hf : firstWithId qs fieldId with
      | none => simp_all [truthy]
      | some q =>
        obtain ⟨h1, h2⟩ := hprint q (firstWithId_some qs fieldId q hf).1
        simp only [hf, Option.getD_some]
        cases hn : toStr (q.prop "name") with
        | none => exact absurd hn h1
        | some s =>
          cases hv : toStr (q.prop "value") with
          | none => exact absurd hv h2
          | some t => exact ih _
    · exact ih _

theorem mem_automaticEntries (domainFieldId : String) (qs : List JVal) (a : String)
    (v : JVal) :
    (a, v) ∈ automaticEntries domainFieldId qs
      ↔ ∃ q ∈ qs, autoMapped domainFieldId q = true ∧ attributeName q = some a
          ∧ q.prop "value" = v := by
  simp only [automaticEntries, List.mem_filterMap, List.mem_filter, Option.map_eq_some',
    Prod.mk.injEq]
  constructor
  · rintro ⟨q, ⟨hq, hm⟩, a', ha, ha', hv⟩
    subst ha'
    exact ⟨q, hq, hm, ha, hv⟩
  · rintro ⟨q, hq, hm, ha, hv⟩
    exact ⟨q, ⟨hq, hm⟩, a, ha, rfl, hv⟩

/-- When the automatic loop completes, it has made the writes of `automaticEntries`. -/
theorem Index.automaticMapping_eq_some (domainFieldId : String) (qs : List JVal)
    (u u' : UpdateData) (h : Index.automaticMapping domainFieldId qs u = some u') :
    u' = applyEntries u (automaticEntries domainFieldId qs) := by
  induction qs generalizing u with
  | nil =>
    simp only [Index.automaticMapping, Option.some.injEq] at h
    exact h.symm
  | cons q rest ih =>
    simp only [Index.automaticMapping] at h
    cases hg : getProp q "id" with
    | none => simp [hg] at h
    | some i =>
      obtain ⟨_, hi⟩ := getProp_eq_some q i "id" hg
      subst hi
      simp only [hg] at h
      by_cases hc : (!strictEq (q.prop "id") domainFieldId && (q.prop "value").truthy) = true
      · simp only [hc, if_true] at h
        cases hk : toPropertyKey
            (if (q.prop "name").truthy = true then q.prop "name" else q.prop "id") with
        | none => simp [hk] at h
        | some key =>
          simp only [hk] at h
          have hE : automaticEntries domainFieldId (q :: rest)
              = (key, q.prop "value") :: automaticEntries domainFieldId rest := by
            have hc' : autoMapped domainFieldId q = true := hc
            have hk' : attributeName q = some key := hk
            simp [automaticEntries, hc', hk']
          cases hv : toStr (q.prop "value") with
          | none => simp [hv] at h
          | some t =>
            simp only [hv] at h
            rw [hE, applyEntries_cons]
            exact ih _ h
      · simp only [Bool.not_eq_true] at hc
        simp only [hc, Bool.false_eq_true, if_false] at h
        have hE : automaticEntries domainFieldId (q :: rest)
            = automaticEntries domainFieldId rest := by
          have hc' : autoMapped domainFieldId q = false := hc
          simp [automaticEntries, hc']
        rw [hE]
        exact ih _ h

/-- PASO 3 of `src/index.js` in the words of §4.4, when it completes: the own properties
after the explicit writes when there is one, after the automatic writes otherwise. -/
theorem Index.updateData_eq_some (cfg : Config) (qs : List JVal) (u : UpdateSet)
    (h : Index.updateData cfg qs = some u) :
    u = if (applyEntries UpdateData.empty
              (explicitEntries qs cfg.FILLOUT_FIELD_MAPPINGS)).own.isEmpty
        then (applyEntries
                (applyEntries UpdateData.empty (explicitEntries qs cfg.FILLOUT_FIELD_MAPPINGS))
                (automaticEntries cfg.FILLOUT_DOMAIN_FIELD_ID qs)).own
        else (applyEntries UpdateData.empty
                (explicitEntries qs cfg.FILLOUT_FIELD_MAPPINGS)).own := by
  simp only [Index.updateData] at h
  cases he : Index.explicitMapping qs cfg.FILLOUT_FIELD_MAPPINGS UpdateData.empty with
  | none => simp [he] at h
  | some explicit =>
    have hex := Index.explicitMapping_eq_some qs _ _ _ he
    subst hex
    simp only [he] at h
    split at h
    · rename_i hemp
      cases ha : Index.automaticMapping cfg.FILLOUT_DOMAIN_FIELD_ID qs
          (applyEntries UpdateData.empty (explicitEntries qs cfg.FILLOUT_FIELD_MAPPINGS)) with
      | none => simp [ha] at h
      | some automatic =>
        have hau := Index.automaticMapping_eq_some _ qs _ _ ha
        subst hau
        simp only [ha, Option.some.injEq] at h
        simp [hemp, ← h]
    · rename_i hemp
      simp only [Option.some.injEq] at h
      simp [hemp, ← h]

/-- PASO 3 is the same code in `src/api/webhook.js` and in `src/index.js`. -/
theorem Api.explicitMapping_eq_index (qs : List JVal) (mappings : List (String × String))
    (u : UpdateData) : Api.explicitMapping qs mappings u = Index.explicitMapping qs mappings u := by
  induction mappings generalizing u with
  | nil => rfl
  | cons m rest ih =>
    obtain ⟨fieldId, attr⟩ := m
    simp only [Api.explicitMapping, Index.explicitMapping, ih]

theorem Api.automaticMapping_eq_index (domainFieldId : String) (qs : List JVal)
    (u : UpdateData) :
    Api.automaticMapping domainFieldId qs u = Index.automaticMapping domainFieldId qs u := by
  induction qs generalizing u with
  | nil => rfl
  | cons q rest ih =>
    simp only [Api.automaticMapping, Index.automaticMapping, ih]

theorem Api.updateData_eq_index (cfg : Config) (qs : List JVal) :
    Api.updateData cfg qs = Index.updateData cfg qs := by
  simp only [Api.updateData, Index.updateData, Api.explicitMapping_eq_index,
    Api.automaticMapping_eq_index]

theorem Api.receivedFields_eq_index (qs : List JVal) :
    Api.receivedFields qs = Index.receivedFields qs := by
  induction qs with
  | nil => rfl
  | cons q rest ih => simp only [Api.receivedFields, Index.receivedFields, ih]

theorem Index.receivedFields_isSome (qs : List JVal) (hqs : IsSubmission qs) :
    ∃ fields, Index.receivedFields qs = some fields := by
  induction qs with
  | nil => exact ⟨[], rfl⟩
  | cons q rest ih =>
    have hq : q.isNullish = false := hqs q (List.mem_cons_self _ _)
    obtain ⟨fields, hf⟩ := ih (fun x hx => hqs x (List.mem_cons_of_mem _ hx))
    exact ⟨obj [("id", q.prop "id"), ("name", q.prop "name"), ("value", q.prop "value")]
      :: fields, by simp [Index.receivedFields, getProp_of_not_nullish q "id" hq, hf]⟩

theorem Api.receivedNames_isSome (qs : List JVal) (hqs : IsSubmission qs) :
    ∃ fields, Api.receivedNames qs = some fields := by
  induction qs with
  | nil => exact ⟨[], rfl⟩
  | cons q rest ih =>
    have hq : q.isNullish = false := hqs q (List.mem_cons_self _ _)
    obtain ⟨fields, hf⟩ := ih (fun x hx => hqs x (List.mem_cons_of_mem _ hx))
    exact ⟨obj [("id", q.prop "id"), ("name", q.prop "name")] :: fields,
      by simp [Api.receivedNames, getProp_of_not_nullish q "id" hq, hf]⟩

/-- The two arrays of received fields are built, or throw, together. -/
theorem Api.receivedNames_isSome_eq (qs : List JVal) :
    (Api.receivedNames qs).isSome = (Index.receivedFields qs).isSome := by
  induction qs with
  | nil => rfl
  | cons q rest ih =>
    simp only [Api.receivedNames, Index.receivedFields]
    cases getProp q "id" with
    | none => rfl
    | some i =>
      cases h1 : Api.receivedNames rest <;> cases h2 : Index.receivedFields rest <;>
        simp_all

/-! ## The calls a handler issues -/

theorem Index.paso3_calls (cfg : Config) (rs : List JVal) (domain companyId entryId : JVal)
    (crm : Crm) :
    ∀ c ∈ (Index.paso3 cfg rs domain companyId entryId crm).calls,
      ∃ values, c = .patchEntry cfg.ATTIO_API_KEY cfg.ATTIO_LIST_ID entryId values := by
  intro c hc
  simp only [Index.paso3] at hc
  cases hu : Index.updateData cfg rs with
  | none => simp [hu, internalError] at hc
  | some values =>
    simp only [hu] at hc
    cases hv : values.isEmpty with
    | true =>
      simp only [hv, if_true] at hc
      cases hr : Index.receivedFields rs <;> simp [hr, internalError] at hc
    | false =>
      simp only [hv, Bool.false_eq_true, if_false] at hc
      refine ⟨values, ?_⟩
      cases hcrm : crm (.patchEntry cfg.ATTIO_API_KEY cfg.ATTIO_LIST_ID entryId values) with
      | rejected => simpa [hcrm, internalError] using hc
      | response ok json =>
        cases ok <;> cases json <;> simpa [hcrm, internalError] using hc

/-- PASO 2 ends with the list-entry query as only call, or goes on with PASO 3. -/
theorem Index.paso2_cases (cfg : Config) (rs : List JVal) (domain companyId : JVal)
    (crm : Crm) :
    (Index.paso2 cfg rs domain companyId crm).calls
        = [.listQuery cfg.ATTIO_API_KEY cfg.ATTIO_LIST_ID companyId]
    ∨ ∃ entryId, Index.paso2 cfg rs domain companyId crm
        = (Index.paso3 cfg rs domain companyId entryId crm).after
            (.listQuery cfg.ATTIO_API_KEY cfg.ATTIO_LIST_ID companyId) := by
  simp only [Index.paso2]
  cases hcrm : crm (.listQuery cfg.ATTIO_API_KEY cfg.ATTIO_LIST_ID companyId) with
  | rejected => simp [internalError]
  | response ok json =>
    cases ok
    · simp [internalError]
    · cases json with
      | none => simp [internalError]
      | some listData =>
        simp only []
        cases hd : getProp listData "data" with
        | none => simp [internalError]
        | some entries =>
          simp only []
          split
          · simp
          · cases hf : firstId entries "entry_id" with
            | none => simp [internalError]
            | some entryId =>
              simp only []
              cases ht : toStr entryId with
              | none => simp [internalError]
              | some t => exact Or.inr ⟨entryId, rfl⟩

theorem Index.paso2_calls (cfg : Config) (rs : List JVal) (domain companyId : JVal)
    (crm : Crm) :
    ∀ c ∈ (Index.paso2 cfg rs domain companyId crm).calls,
      c = .listQuery cfg.ATTIO_API_KEY cfg.ATTIO_LIST_ID companyId
      ∨ ∃ entryId values,
          c = .patchEntry cfg.ATTIO_API_KEY cfg.ATTIO_LIST_ID entryId values := by
  intro c hc
  rcases Index.paso2_cases cfg rs domain companyId crm with h | ⟨entryId, h⟩
  · rw [h] at hc
    exact Or.inl (by simpa using hc)
  · rw [h] at hc
    simp only [Outcome.after, List.mem_cons] at hc
    rcases hc with hc | hc
    · exact Or.inl hc
    · exact Or.inr ⟨entryId, Index.paso3_calls cfg rs domain companyId entryId crm c hc⟩

/-- PASO 1 ends with the company query as only call, or goes on with PASO 2. -/
theorem Index.paso1_cases (cfg : Config) (rs : List JVal) (domain : JVal) (crm : Crm) :
    (Index.paso1 cfg rs domain crm).calls
        = [.companyQuery cfg.ATTIO_API_KEY cfg.ATTIO_DOMAIN_ATTRIBUTE domain]
    ∨ ∃ companyId, Index.paso1 cfg rs domain crm
        = (Index.paso2 cfg rs domain companyId crm).after
            (.companyQuery cfg.ATTIO_API_KEY cfg.ATTIO_DOMAIN_ATTRIBUTE domain) := by
  simp only [Index.paso1]
  cases hcrm : crm (.companyQuery cfg.ATTIO_API_KEY cfg.ATTIO_DOMAIN_ATTRIBUTE domain) with
  | rejected => simp [internalError]
  | response ok json =>
    cases ok
    · simp [internalError]
    · cases json with
      | none => simp [internalError]
      | some companyData =>
        simp only []
        cases hd : getProp companyData "data" with
        | none => simp [internalError]
        | some companies =>
          simp only []
          split
          · simp
          · cases hf : firstId companies "record_id" with
            | none => simp [internalError]
            | some companyId =>
              simp only []
              cases ht : toStr companyId with
              | none => simp [internalError]
              | some t => exact Or.inr ⟨companyId, rfl⟩

theorem Index.paso1_calls (cfg : Config) (rs : List JVal) (domain : JVal) (crm : Crm) :
    ∀ c ∈ (Index.paso1 cfg rs domain crm).calls,
      c = .companyQuery cfg.ATTIO_API_KEY cfg.ATTIO_DOMAIN_ATTRIBUTE domain
      ∨ (∃ companyId, c = .listQuery cfg.ATTIO_API_KEY cfg.ATTIO_LIST_ID companyId)
      ∨ ∃ entryId values,
          c = .patchEntry cfg.ATTIO_API_KEY cfg.ATTIO_LIST_ID entryId values := by
  intro c hc
  rcases Index.paso1_cases cfg rs domain crm with h | ⟨companyId, h⟩
  · rw [h] at hc
    exact Or.inl (by simpa using hc)
  · rw [h] at hc
    simp only [Outcome.after, List.mem_cons] at hc
    rcases hc with hc | hc
    · exact Or.inl hc
    · rcases Index.paso2_calls cfg rs domain companyId crm c hc with h2 | h2
      · exact Or.inr (Or.inl ⟨companyId, h2⟩)
      · exact Or.inr (Or.inr h2)

/-- The handler of `src/index.js` issues no call, or goes on with PASO 1 for the array of
questions and the domain it has found. -/
theorem Index.webhookWith_cases (cfg : Config) (body : JVal) (crm : Crm) :
    (Index.webhookWith cfg body crm).calls = []
    ∨ ∃ rs domain, Index.webhookWith cfg body crm = Index.paso1 cfg rs domain crm := by
  simp only [Index.webhookWith]
  split
  · simp [internalError]
  · cases hn : Index.normalize body with
    | none => simp [internalError]
    | some rs =>
      simp only []
      split
      · simp
      · cases hf : findById rs cfg.FILLOUT_DOMAIN_FIELD_ID with
        | none => simp [internalError]
        | some dq =>
          simp only []
          split
          · cases hr : Index.receivedFields rs <;> simp [internalError]
          · cases ht : toStr (dq.optProp "value") with
            | none => simp [internalError]
            | some t => exact Or.inr ⟨rs, dq.optProp "value", rfl⟩

/-- From PASO 1 on, `src/api/webhook.js` and `src/index.js` are the same code. -/
theorem Api.paso3_eq_index (cfg : Config) (rs : List JVal) (domain companyId entryId : JVal)
    (crm : Crm) :
    Api.paso3 cfg rs domain companyId entryId crm
      = Index.paso3 cfg rs domain companyId entryId crm := by
  simp only [Api.paso3, Index.paso3, Api.updateData_eq_index, Api.receivedFields_eq_index]

theorem Api.paso2_eq_index (cfg : Config) (rs : List JVal) (domain companyId : JVal)
    (crm : Crm) :
    Api.paso2 cfg rs domain companyId crm = Index.paso2 cfg rs domain companyId crm := by
  simp only [Api.paso2, Index.paso2, Api.paso3_eq_index]

theorem Api.paso1_eq_index (cfg : Config) (rs : List JVal) (domain : JVal) (crm : Crm) :
    Api.paso1 cfg rs domain crm = Index.paso1 cfg rs domain crm := by
  simp only [Api.paso1, Index.paso1, Api.paso2_eq_index]

/-- The handler of `src/api/webhook.js` issues no call, or goes on with PASO 1 for the
array of questions and the domain it has found. -/
theorem Api.handlerWith_cases (cfg : Config) (method : String) (body : JVal) (crm : Crm) :
    (Api.handlerWith cfg method body crm).calls = []
    ∨ ∃ rs domain, Api.handlerWith cfg method body crm = Index.paso1 cfg rs domain crm := by
  simp only [Api.handlerWith, Api.paso1_eq_index]
  split
  · simp
  · split
    · simp [internalError]
    · cases hn : Api.responses body with
      | none => simp [internalError]
      | some found =>
        simp only []
        cases he : Api.elements found with
        | none => simp [internalError]
        | some rs =>
          simp only []
          cases hf : findById rs cfg.FILLOUT_DOMAIN_FIELD_ID with
          | none => simp [internalError]
          | some dq =>
            simp only []
            split
            · cases hr : Api.receivedNames rs <;> simp [internalError]
            · cases ht : toStr (dq.optProp "value") with
              | none => simp [internalError]
              | some t => exact Or.inr ⟨rs, dq.optProp "value", rfl⟩

/-! ## The two lookups (§4.3) -/

theorem truthy_undefined : (undefined : JVal).truthy = false := rfl

theorem truthy_arr_nil : (arr []).truthy = true := rfl

theorem lengthIsZero_arr_nil : (arr []).lengthIsZero = true := rfl

/-- PASO 1 when the company query succeeds with zero results. -/
theorem Index.paso1_company_not_found (cfg : Config) (rs : List JVal)
    (domain companyData : JVal) (crm : Crm)
    (hcrm : crm (.companyQuery cfg.ATTIO_API_KEY cfg.ATTIO_DOMAIN_ATTRIBUTE domain)
      = .response true (some companyData))
    (hdata : getProp companyData "data" = some undefined
      ∨ getProp companyData "data" = some (arr [])) :
    Index.paso1 cfg rs domain crm
      = ⟨[.companyQuery cfg.ATTIO_API_KEY cfg.ATTIO_DOMAIN_ATTRIBUTE domain], 404,
          .companyNotFound domain⟩ := by
  rcases hdata with hd | hd <;>
    simp [Index.paso1, hcrm, hd, truthy_undefined, truthy_arr_nil, lengthIsZero_arr_nil]

/-- PASO 2 when the list-entry query succeeds with zero results. -/
theorem Index.paso2_entry_not_found (cfg : Config) (rs : List JVal)
    (domain companyId listData : JVal) (crm : Crm)
    (hcrm : crm (.listQuery cfg.ATTIO_API_KEY cfg.ATTIO_LIST_ID companyId)
      = .response true (some listData))
    (hdata : getProp listData "data" = some undefined
      ∨ getProp listData "data" = some (arr [])) :
    Index.paso2 cfg rs domain companyId crm
      = ⟨[.listQuery cfg.ATTIO_API_KEY cfg.ATTIO_LIST_ID companyId], 404,
          .listEntryNotFound domain companyId⟩ := by
  rcases hdata with hd | hd <;>
    simp [Index.paso2, hcrm, hd, truthy_undefined, truthy_arr_nil, lengthIsZero_arr_nil]

/-- The company lookup of an outcome that goes through PASO 1. -/
theorem company_not_found_of_paso1 (cfg : Config) (rs : List JVal)
    (d domain companyData : JVal) (crm : Crm)
    (hmem : Call.companyQuery cfg.ATTIO_API_KEY cfg.ATTIO_DOMAIN_ATTRIBUTE domain
      ∈ (Index.paso1 cfg rs d crm).calls)
    (hcrm : crm (.companyQuery cfg.ATTIO_API_KEY cfg.ATTIO_DOMAIN_ATTRIBUTE domain)
      = .response true (some companyData))
    (hdata : getProp companyData "data" = some undefined
      ∨ getProp companyData "data" = some (arr [])) :
    Index.paso1 cfg rs d crm
      = ⟨[.companyQuery cfg.ATTIO_API_KEY cfg.ATTIO_DOMAIN_ATTRIBUTE domain], 404,
          .companyNotFound domain⟩ := by
  have hd : domain = d := by
    rcases Index.paso1_calls cfg rs d crm _ hmem with h | ⟨c, h⟩ | ⟨e, v, h⟩
    · simpa using h
    · simp at h
    · simp at h
  subst hd
  exact Index.paso1_company_not_found cfg rs domain companyData crm hcrm hdata

/-- C6: for every request that reaches the company lookup (the handler issues the company
query, for the domain `domain`) and for which the company query succeeds with zero results
(`data` missing or an empty array), both handlers answer 404, and the company query is the
only CRM call: neither the list-entry query nor the PATCH is issued. -/
theorem C6_company_not_found_is_404 (cfg : Config) (crm : Crm) (method : String)
    (body domain companyData : JVal)
    (hcrm : crm (.companyQuery cfg.ATTIO_API_KEY cfg.ATTIO_DOMAIN_ATTRIBUTE domain)
      = .response true (some companyData))
    (hdata : getProp companyData "data" = some undefined
      ∨ getProp companyData "data" = some (arr [])) :
    (Call.companyQuery cfg.ATTIO_API_KEY cfg.ATTIO_DOMAIN_ATTRIBUTE domain
        ∈ (Index.webhookWith cfg body crm).calls →
      (Index.webhookWith cfg body crm).status = 404
      ∧ (Index.webhookWith cfg body crm).calls
        = [.companyQuery cfg.ATTIO_API_KEY cfg.ATTIO_DOMAIN_ATTRIBUTE domain])
    ∧ (Call.companyQuery cfg.ATTIO_API_KEY cfg.ATTIO_DOMAIN_ATTRIBUTE domain
        ∈ (Api.handlerWith cfg method body crm).calls →
      (Api.handlerWith cfg method body crm).status = 404
      ∧ (Api.handlerWith cfg method body crm).calls
        = [.companyQuery cfg.ATTIO_API_KEY cfg.ATTIO_DOMAIN_ATTRIBUTE domain]) := by
  constructor
  · intro hmem
    rcases Index.webhookWith_cases cfg body crm with h | ⟨rs, d, h⟩
    · rw [h] at hmem
      simp at hmem
    · rw [h] at hmem ⊢
      rw [company_not_found_of_paso1 cfg rs d domain companyData crm hmem hcrm hdata]
      exact ⟨rfl, rfl⟩
  · intro hmem
    rcases Api.handlerWith_cases cfg method body crm with h | ⟨rs, d, h⟩
    · rw [h] at hmem
      simp at hmem
    · rw [h] at hmem ⊢
      rw [company_not_found_of_paso1 cfg rs d domain companyData crm hmem hcrm hdata]
      exact ⟨rfl, rfl⟩

/-- C6 on the example payload of the specification with a CRM that finds no company. -/
theorem C6_company_not_found_witness :
    ((Index.webhookWith (Index.config "key") (obj [("questions", arr exampleQuestions)])
        emptyCrm).status = 404
      ∧ (Index.webhookWith (Index.config "key") (obj [("questions", arr exampleQuestions)])
        emptyCrm).calls = [.companyQuery "key" "domains" (str "acme.com")])
    ∧ ((Api.handlerWith (Index.config "key") "POST"
        (obj [("questions", arr exampleQuestions)]) emptyCrm).status = 404
      ∧ (Api.handlerWith (Index.config "key") "POST"
        (obj [("questions", arr exampleQuestions)]) emptyCrm).calls
          = [.companyQuery "key" "domains" (str "acme.com")]) :=
  have h := C6_company_not_found_is_404 (Index.config "key") emptyCrm "POST"
    (obj [("questions", arr exampleQuestions)]) (str "acme.com")
    (obj [("data", arr [])]) rfl (Or.inr rfl)
  ⟨h.1 (List.mem_cons_self _ _), h.2 (List.mem_cons_self _ _)⟩

/-- The list lookup of an outcome that goes through PASO 1. -/
theorem entry_not_found_of_paso1 (cfg : Config) (rs : List JVal)
    (d companyId listData : JVal) (crm : Crm)
    (hmem : Call.listQuery cfg.ATTIO_API_KEY cfg.ATTIO_LIST_ID companyId
      ∈ (Index.paso1 cfg rs d crm).calls)
    (hcrm : crm (.listQuery cfg.ATTIO_API_KEY cfg.ATTIO_LIST_ID companyId)
      = .response true (some listData))
    (hdata : getProp listData "data" = some undefined
      ∨ getProp listData "data" = some (arr [])) :
    Index.paso1 cfg rs d crm
      = ⟨[.companyQuery cfg.ATTIO_API_KEY cfg.ATTIO_DOMAIN_ATTRIBUTE d,
          .listQuery cfg.ATTIO_API_KEY cfg.ATTIO_LIST_ID companyId], 404,
          .listEntryNotFound d companyId⟩ := by
  rcases Index.paso1_cases cfg rs d crm with h | ⟨c, h⟩
  · rw [h] at hmem
    simp at hmem
  · rw [h] at hmem ⊢
    simp only [Outcome.after, List.mem_cons] at hmem
    rcases hmem with hm | hm
    · simp at hm
    · have hc : companyId = c := by
        rcases Index.paso2_calls cfg rs d c crm _ hm with h2 | ⟨e, v, h2⟩
        · simpa using h2
        · simp at h2
      subst hc
      rw [Index.paso2_entry_not_found cfg rs d companyId listData crm hcrm hdata]
      rfl

/-- C7: for every request in which the company query returned a company (the handler goes
on to issue the list-entry query, for the company `companyId`) and the list-entry query
succeeds with zero results (`data` missing or an empty array), both handlers answer 404
with the `companyId` in the body, and the PATCH is never issued: the two queries are the
only CRM calls, whatever the questions of the submission are. -/
theorem C7_list_entry_not_found_is_404 (cfg : Config) (crm : Crm) (method : String)
    (body companyId listData : JVal)
    (hcrm : crm (.listQuery cfg.ATTIO_API_KEY cfg.ATTIO_LIST_ID companyId)
      = .response true (some listData))
    (hlist : getProp listData "data" = some undefined
      ∨ getProp listData "data" = some (arr [])) :
    (Call.listQuery cfg.ATTIO_API_KEY cfg.ATTIO_LIST_ID companyId
        ∈ (Index.webhookWith cfg body crm).calls →
      (Index.webhookWith cfg body crm).status = 404
      ∧ ∃ domain, (Index.webhookWith cfg body crm).body
          = .listEntryNotFound domain companyId
        ∧ (Index.webhookWith cfg body crm).calls
          = [.companyQuery cfg.ATTIO_API_KEY cfg.ATTIO_DOMAIN_ATTRIBUTE domain,
             .listQuery cfg.ATTIO_API_KEY cfg.ATTIO_LIST_ID companyId])
    ∧ (Call.listQuery cfg.ATTIO_API_KEY cfg.ATTIO_LIST_ID companyId
        ∈ (Api.handlerWith cfg method body crm).calls →
      (Api.handlerWith cfg method body crm).status = 404
      ∧ ∃ domain, (Api.handlerWith cfg method body crm).body
          = .listEntryNotFound domain companyId
        ∧ (Api.handlerWith cfg method body crm).calls
          = [.companyQuery cfg.ATTIO_API_KEY cfg.ATTIO_DOMAIN_ATTRIBUTE domain,
             .listQuery cfg.ATTIO_API_KEY cfg.ATTIO_LIST_ID companyId]) := by
  constructor
  · intro hmem
    rcases Index.webhookWith_cases cfg body crm with h | ⟨rs, d, h⟩
    · rw [h] at hmem
      simp at hmem
    · rw [h] at hmem ⊢
      rw [entry_not_found_of_paso1 cfg rs d companyId listData crm hmem hcrm hlist]
      exact ⟨rfl, d, rfl, rfl⟩
  · intro hmem
    rcases Api.handlerWith_cases cfg method body crm with h | ⟨rs, d, h⟩
    · rw [h] at hmem
      simp at hmem
    · rw [h] at hmem ⊢
      rw [entry_not_found_of_paso1 cfg rs d companyId listData crm hmem hcrm hlist]
      exact ⟨rfl, d, rfl, rfl⟩

/-- C7 on the example payload of the specification with a CRM that has no list entry. -/
theorem C7_list_entry_not_found_witness :
    ((Index.webhookWith (Index.config "key") (obj [("questions", arr exampleQuestions)])
        noEntryCrm).status = 404
      ∧ ∃ domain, (Index.webhookWith (Index.config "key")
          (obj [("questions", arr exampleQuestions)]) noEntryCrm).body
            = .listEntryNotFound domain (str "c-1")
        ∧ (Index.webhookWith (Index.config "key")
          (obj [("questions", arr exampleQuestions)]) noEntryCrm).calls
            = [.companyQuery "key" "domains" domain,
               .listQuery "key" "e2f1f046-d64f-4b4a-8e90-25b7c10140ba" (str "c-1")])
    ∧ ((Api.handlerWith (Index.config "key") "POST"
        (obj [("questions", arr exampleQuestions)]) noEntryCrm).status = 404
      ∧ ∃ domain, (Api.handlerWith (Index.config "key") "POST"
          (obj [("questions", arr exampleQuestions)]) noEntryCrm).body
            = .listEntryNotFound domain (str "c-1")
        ∧ (Api.handlerWith (Index.config "key") "POST"
          (obj [("questions", arr exampleQuestions)]) noEntryCrm).calls
            = [.companyQuery "key" "domains" domain,
               .listQuery "key" "e2f1f046-d64f-4b4a-8e90-25b7c10140ba" (str "c-1")]) :=
  have h := C7_list_entry_not_found_is_404 (Index.config "key") noEntryCrm "POST"
    (obj [("questions", arr exampleQuestions)]) (str "c-1")
    (obj [("data", arr [])]) rfl (Or.inr rfl)
  ⟨h.1 (List.mem_cons_of_mem _ (List.mem_cons_self _ _)),
    h.2 (List.mem_cons_of_mem _ (List.mem_cons_self _ _))⟩

/-! ## Payload normalisation (§4.1) -/

/-- C1: in the Express handler of `src/index.js`, for every array `qs`, the three payload
shapes normalise to the same question sequence, `qs` itself in its original order:
a body `flat` whose `questions` is `qs`; a body `api` with no top-level `questions` array
whose `responses` is an array with a first wrapper holding `questions: qs`; a body `wrapped`
with no top-level `questions` array (and no `responses` wrapper taking precedence) whose
`response` holds `questions: qs`.  Other properties of the bodies are arbitrary. -/
theorem C1_three_shapes_normalize_alike (qs : List JVal) (flat api wrapped : JVal)
    (hflat : getProp flat "questions" = some (arr qs))
    (hapi : (api.prop "questions").isArray = false)
    (hapi2 : ∃ first rest, getProp api "responses" = some (arr (first :: rest))
      ∧ getProp first "questions" = some (arr qs))
    (hw : (wrapped.prop "questions").isArray = false)
    (hw2 : ∀ first rest, wrapped.prop "responses" = arr (first :: rest) →
      first.isNullish = false ∧ (first.prop "questions").isArray = false)
    (hw3 : ∃ response, getProp wrapped "response" = some response
      ∧ getProp response "questions" = some (arr qs)) :
    Index.normalize flat = some qs ∧ Index.normalize api = some qs
      ∧ Index.normalize wrapped = some qs := by
  refine ⟨?_, ?_, ?_⟩
  · simp [Index.normalize, hflat]
  · obtain ⟨first, rest, h1, h2⟩ := hapi2
    have hn : api.isNullish = false := by
      cases hc : api.isNullish
      · rfl
      · simp [getProp, hc] at h1
    have h1' : api.prop "responses" = arr (first :: rest) := by
      simpa [getProp, hn] using h1
    simp only [Index.normalize, getProp_of_not_nullish api "questions" hn, h1', h2]
    cases hq : api.prop "questions" <;> simp_all [isArray]
  · obtain ⟨response, h1, h2⟩ := hw3
    have hn : wrapped.isNullish = false := by
      cases hc : wrapped.isNullish
      · rfl
      · simp [getProp, hc] at h1
    have hrn : response.isNullish = false := by
      cases hc : response.isNullish
      · rfl
      · simp [getProp, hc] at h2
    have h1' : wrapped.prop "response" = response := by
      simpa [getProp, hn] using h1
    have h2' : response.prop "questions" = arr qs := by
      simpa [getProp, hrn] using h2
    have hrt : response.truthy = true := by
      cases response <;> simp_all [JVal.prop, truthy, isNullish]
    have hwq : Index.wrappedQuestions wrapped = qs := by
      simp [Index.wrappedQuestions, h1', h2', hrt]
    simp only [Index.normalize, getProp_of_not_nullish wrapped "questions" hn]
    cases hq : wrapped.prop "questions" with
    | arr xs => simp [hq, isArray] at hw
    | _ =>
      simp only []
      cases hr : wrapped.prop "responses" with
      | arr ys =>
        cases ys with
        | nil => simp [hwq]
        | cons first rest =>
          obtain ⟨hf1, hf2⟩ := hw2 first rest hr
          simp only [getProp_of_not_nullish first "questions" hf1]
          cases hfq : first.prop "questions" <;> simp_all [isArray]
      | _ => simp [hwq]

/-- The three payloads of C1 written out, with further wrappers after the first one. -/
theorem C1_three_shapes_witness :
    Index.normalize (obj [("questions", arr exampleQuestions)]) = some exampleQuestions
    ∧ Index.normalize
        (obj [("responses", arr [obj [("questions", arr exampleQuestions)], obj []])])
      = some exampleQuestions
    ∧ Index.normalize (obj [("response", obj [("questions", arr exampleQuestions)])])
      = some exampleQuestions :=
  C1_three_shapes_normalize_alike exampleQuestions
    (obj [("questions", arr exampleQuestions)])
    (obj [("responses", arr [obj [("questions", arr exampleQuestions)], obj []])])
    (obj [("response", obj [("questions", arr exampleQuestions)])])
    rfl rfl ⟨obj [("questions", arr exampleQuestions)], [obj []], rfl, rfl⟩
    rfl (by intro first rest h; simp [JVal.prop, lookupProp] at h)
    ⟨obj [("questions", arr exampleQuestions)], rfl, rfl⟩

/-! ## Bodies in which no shape matches (§4.1) -/

/-- Whenever the normalisation of `src/index.js` returns, it returns what §4.1 says: the
first structurally valid match among the three shapes, `[]` when none matches. -/
theorem Index.normalize_eq_spec (body : JVal) (qs : List JVal)
    (h : Index.normalize body = some qs) : specNormalize body = qs := by
  have hw : Index.wrappedQuestions body = (nestedQuestions (body.prop "response")).getD [] := by
    simp only [Index.wrappedQuestions, nestedQuestions]
    cases hr : body.prop "response" with
    | obj props => cases (obj props).prop "questions" <;> simp [truthy]
    | _ => simp [JVal.prop, truthy]
  have hn : body.isNullish = false := by
    cases hc : body.isNullish
    · rfl
    · simp [Index.normalize, getProp, hc] at h
  simp only [Index.normalize, getProp_of_not_nullish body "questions" hn] at h
  simp only [specNormalize, nestedQuestions]
  cases hq : body.prop "questions" with
  | arr xs => simpa [hq] using h
  | _ =>
    simp only [hq] at h
    cases hr : body.prop "responses" with
    | arr ys =>
      cases ys with
      | nil =>
        simp only [hr, Option.some.injEq] at h
        simp [← h, hw, nestedQuestions]
      | cons first rest =>
        simp only [hr] at h
        cases hf : first.isNullish with
        | true => simp [getProp, hf] at h
        | false =>
          simp only [getProp_of_not_nullish first "questions" hf] at h
          cases hfq : first.prop "questions" with
          | arr zs => simpa [hfq] using h
          | _ =>
            simp only [hfq, Option.some.injEq] at h
            simp [← h, hw, nestedQuestions, hfq]
    | _ =>
      simp only [hr, Option.some.injEq] at h
      simp [← h, hw, nestedQuestions]

/-- Bodies in which no shape matches and that are answered 400 `No questions in payload`:
whenever the normalisation returns the empty array, with the configuration present. -/
theorem Index.no_questions_is_400 (cfg : Config) (crm : Crm) (body : JVal)
    (hcfg : cfg.present = true) (h : Index.normalize body = some []) :
    Index.webhookWith cfg body crm = ⟨[], 400, .noQuestions body⟩ := by
  simp [Index.webhookWith, hcfg, h]

/-- C8, on the body `{"responses": [null]}`: no shape matches (the normaliser of §4.1 gives
the empty sequence), yet `Array.isArray(filloutData.responses[0].questions)` throws a
`TypeError` on the `null` wrapper, the normalisation does not return, and the handler of
`src/index.js` ends in its `catch` branch: status 500, not the client error 400. -/
theorem C8_null_wrapper_ends_in_500 :
    specNormalize nullWrapperBody = []
    ∧ Index.normalize nullWrapperBody = none
    ∧ ∀ crm, (Index.webhook "key" nullWrapperBody crm).status = 500
        ∧ (Index.webhook "key" nullWrapperBody crm).body = .internalError
        ∧ (Index.webhook "key" nullWrapperBody crm).calls = [] :=
  ⟨rfl, rfl, fun _ => ⟨rfl, rfl, rfl⟩⟩

/-- The normalisation of `src/index.js` throws exactly when the body itself is `null` or
`undefined`, or when there is no top-level `questions` array and the first element of the
`responses` array is `null`. -/
theorem Index.normalize_eq_none_iff (body : JVal) :
    Index.normalize body = none
      ↔ body.isNullish = true
        ∨ ((body.prop "questions").isArray = false
          ∧ ∃ first rest, body.prop "responses" = arr (first :: rest)
              ∧ first.isNullish = true) := by
  cases hn : body.isNullish with
  | true => simp [Index.normalize, getProp, hn]
  | false =>
    simp only [Index.normalize, getProp_of_not_nullish body "questions" hn,
      Bool.false_eq_true, false_or]
    cases hq : body.prop "questions" with
    | arr xs => simp [isArray]
    | _ =>
      simp only [isArray, true_and]
      cases hr : body.prop "responses" with
      | arr ys =>
        cases ys with
        | nil => simp
        | cons first rest =>
          cases hf : first.isNullish with
          | true => simp [getProp, hf]
          | false =>
            simp only [getProp_of_not_nullish first "questions" hf]
            cases hfq : first.prop "questions" <;> simp [hf]
      | _ => simp

/-! ## Domain resolution (§4.2) -/

/-- The value `domainQuestion?.value` when no question carries the domain id, or when the
first question that does has a falsy value (the empty string among them), is falsy. -/
theorem domain_missing (qs : List JVal) (fieldId : String)
    (h : (∀ q ∈ qs, strictEq (q.prop "id") fieldId = false)
      ∨ ∃ q, firstWithId qs fieldId = some q ∧ (q.prop "value").truthy = false) :
    (((firstWithId qs fieldId).getD undefined).optProp "value").truthy = false := by
  rcases h with h | ⟨q, hq, hv⟩
  · have : firstWithId qs fieldId = none := by
      unfold firstWithId
      rw [List.find?_eq_none]
      intro q hq
      simp [h q hq]
    simp [this, optProp, isNullish, truthy]
  · have hn := (truthy_of_strictEq_id q fieldId (firstWithId_some qs fieldId q hq).2).2
    simp [hq, optProp, hn, hv]

/-- Where the claim on a missing domain holds: with the required configuration present,
when every element of the normalised array is a question object (none is `null`) and no
question has the domain question id, or the first one that has it has an empty value, both
handlers answer 400 and issue no CRM call. -/
theorem missing_domain_is_400_for_question_objects (cfg : Config) (crm : Crm)
    (body : JVal) (qs : List JVal) (hcfg : cfg.present = true) (hqs : IsSubmission qs)
    (hdomain : (∀ q ∈ qs, strictEq (q.prop "id") cfg.FILLOUT_DOMAIN_FIELD_ID = false)
      ∨ ∃ q, firstWithId qs cfg.FILLOUT_DOMAIN_FIELD_ID = some q ∧ q.prop "value" = str "") :
    (Index.normalize body = some qs →
      (Index.webhookWith cfg body crm).status = 400
        ∧ (Index.webhookWith cfg body crm).calls = [])
    ∧ (Api.responses body = some (arr qs) →
      (Api.handlerWith cfg "POST" body crm).status = 400
        ∧ (Api.handlerWith cfg "POST" body crm).calls = []) := by
  have hmiss := domain_missing qs cfg.FILLOUT_DOMAIN_FIELD_ID (by
    rcases hdomain with h | ⟨q, hq, hv⟩
    · exact Or.inl h
    · exact Or.inr ⟨q, hq, by simp [hv, truthy]⟩)
  constructor
  · intro hnorm
    obtain ⟨fields, hf⟩ := Index.receivedFields_isSome qs hqs
    simp only [Index.webhookWith, hcfg, hnorm, findById_eq qs _ hqs, hmiss, hf]
    cases qs <;> simp
  · intro hresp
    obtain ⟨fields, hf⟩ := Api.receivedNames_isSome qs hqs
    simp [Api.handlerWith, hcfg, hresp, Api.elements, findById_eq qs _ hqs, hmiss, hf]

/-- C2, on the bodies `{"questions": [null]}` and `{"questions": [{"id": "6aYW",
"value": ""}, null]}`, with the required configuration present: the normalised sequence of
the first holds no question with the domain question id `6aYW`, and in the second the
first question with that id has the empty value; yet the callback of `find`, in the first,
and of the `map` that builds `receivedFields`, in the second, reads `q.id` on the `null`
element and throws a `TypeError`, and both handlers end in their `catch` branch: status
500, not 400 (no CRM call is issued). -/
theorem C2_null_question_ends_in_500 :
    Index.normalize nullQuestionBody = some [null]
    ∧ Api.responses nullQuestionBody = some (arr [null])
    ∧ (∀ q ∈ [JVal.null], strictEq (q.prop "id") "6aYW" = false)
    ∧ Index.normalize emptyDomainBody
        = some [obj [("id", str "6aYW"), ("value", str "")], null]
    ∧ Api.responses emptyDomainBody
        = some (arr [obj [("id", str "6aYW"), ("value", str "")], null])
    ∧ (firstWithId [obj [("id", str "6aYW"), ("value", str "")], null] "6aYW").map
        (fun q => q.prop "value") = some (str "")
    ∧ ∀ crm,
        ((Index.webhook "key" nullQuestionBody crm).status = 500
          ∧ (Index.webhook "key" nullQuestionBody crm).calls = [])
        ∧ ((Api.handler "6aYW" "" "key" "list" "POST" nullQuestionBody crm).status = 500
          ∧ (Api.handler "6aYW" "" "key" "list" "POST" nullQuestionBody crm).calls = [])
        ∧ ((Index.webhook "key" emptyDomainBody crm).status = 500
          ∧ (Index.webhook "key" emptyDomainBody crm).calls = [])
        ∧ ((Api.handler "6aYW" "" "key" "list" "POST" emptyDomainBody crm).status = 500
          ∧ (Api.handler "6aYW" "" "key" "list" "POST" emptyDomainBody crm).calls = []) :=
  ⟨rfl, rfl, by intro q hq; simp at hq; subst hq; rfl, rfl, rfl, rfl,
    fun _ => ⟨⟨rfl, rfl⟩, ⟨rfl, rfl⟩, ⟨rfl, rfl⟩, ⟨rfl, rfl⟩⟩⟩

/-! ## Field mapping (§4.4) -/

theorem mem_explicitEntries (qs : List JVal) (mappings : List (String × String))
    (a : String) (v : JVal) :
    (a, v) ∈ explicitEntries qs mappings
      ↔ ∃ m ∈ mappings, m.2 = a ∧ ∃ q, firstWithId qs m.1 = some q
          ∧ q.prop "value" = v ∧ v.isNullish = false := by
  simp only [explicitEntries, List.mem_filterMap]
  constructor
  · rintro ⟨m, hm, h⟩
    cases hf : firstWithId qs m.1 with
    | none => simp [hf] at h
    | some q =>
      cases hn : (q.prop "value").isNullish with
      | true => simp [hf, hn] at h
      | false =>
        simp only [hf, hn, Bool.false_eq_true, if_false, Option.some.injEq,
          Prod.mk.injEq] at h
        exact ⟨m, hm, h.1, q, hf, h.2, by rw [← h.2]; exact hn⟩
  · rintro ⟨m, hm, ha, q, hf, hv, hn⟩
    refine ⟨m, hm, ?_⟩
    subst hv
    simp [hf, hn, ha]

theorem automaticEntries_append (domainFieldId : String) (pre post : List JVal) :
    automaticEntries domainFieldId (pre ++ post)
      = automaticEntries domainFieldId pre ++ automaticEntries domainFieldId post := by
  simp [automaticEntries]

theorem explicitEntries_append (qs : List JVal) (pre post : List (String × String)) :
    explicitEntries qs (pre ++ post) = explicitEntries qs pre ++ explicitEntries qs post := by
  simp [explicitEntries]

/-- Among the automatically mapped questions that share an attribute, the last one of the
submission gives the value. -/
theorem automatic_last_wins (domainFieldId : String) (pre post : List JVal) (q : JVal)
    (a : String) (hq : autoMapped domainFieldId q = true) (ha : attributeName q = some a)
    (hpost : ∀ p ∈ post, autoMapped domainFieldId p = true → attributeName p ≠ some a) :
    lastWrite (automaticEntries domainFieldId (pre ++ q :: post)) a
      = some (q.prop "value") := by
  have h1 : automaticEntries domainFieldId (q :: post)
      = (a, q.prop "value") :: automaticEntries domainFieldId post := by
    simp [automaticEntries, hq, ha]
  rw [automaticEntries_append, h1]
  apply lastWrite_append_last
  intro e he
  obtain ⟨p, hp, hm, hpa, _⟩ := (mem_automaticEntries domainFieldId post e.1 e.2).mp he
  intro heq
  exact hpost p hp hm (by rw [hpa, heq])

/-- The first question of the submission with a given id is the one `find` returns. -/
theorem firstWithId_append (pre post : List JVal) (q : JVal) (fieldId : String)
    (hpre : ∀ p ∈ pre, strictEq (p.prop "id") fieldId = false)
    (hq : strictEq (q.prop "id") fieldId = true) :
    firstWithId (pre ++ q :: post) fieldId = some q := by
  induction pre with
  | nil => simp [firstWithId, hq]
  | cons p rest ih =>
    have hp := hpre p (List.mem_cons_self _ _)
    have := ih (fun x hx => hpre x (List.mem_cons_of_mem _ hx))
    simp only [firstWithId] at this
    simp [firstWithId, hp, this]

/-- For an explicitly mapped id, the first question of the submission with that id gives
the value, whatever follows it; among the entries of the table that write one attribute,
the last one that matches stays. -/
theorem explicit_first_wins (qs : List JVal) (mpre mpost : List (String × String))
    (fieldId a : String) (q : JVal)
    (hfirst : firstWithId qs fieldId = some q)
    (hvalue : (q.prop "value").isNullish = false)
    (hpost : ∀ m ∈ mpost, m.2 ≠ a) :
    lastWrite (explicitEntries qs (mpre ++ (fieldId, a) :: mpost)) a
      = some (q.prop "value") := by
  have h1 : explicitEntries qs ((fieldId, a) :: mpost)
      = (a, q.prop "value") :: explicitEntries qs mpost := by
    simp [explicitEntries, hfirst, hvalue]
  rw [explicitEntries_append, h1]
  apply lastWrite_append_last
  intro e he
  obtain ⟨m, hm, ha, _⟩ := (mem_explicitEntries qs mpost e.1 e.2).mp he
  rw [← ha]
  exact hpost m hm

/-- The own properties after writes to `{}`: for every attribute but `__proto__`, the last
write. -/
theorem get_applyEntries_empty (es : List (String × JVal)) (a : String)
    (ha : a ≠ "__proto__") :
    UpdateSet.get (applyEntries UpdateData.empty es).own a = lastWrite es a := by
  rw [get_applyEntries es _ a ha]
  cases lastWrite es a <;> rfl

/-- C3, the claim as stated fails: in `repeatedQuestions` the id `wrV6` of the mapping entry
`wrV6 ↦ hdd_evaluation_1` is present with the value `"yes"`, neither null nor undefined;
the handler looks at the first question with that id only, whose value is `null`, so the
explicit mapping writes nothing, the automatic fallback runs, and the UpdateSet is
`{q1: "yes"}`: an automatically mapped question, and no entry for `hdd_evaluation_1`. -/
theorem C3_counterexample_repeated_id :
    (∃ m ∈ exampleConfig.FILLOUT_FIELD_MAPPINGS, ∃ q ∈ repeatedQuestions,
        strictEq (q.prop "id") m.1 = true ∧ (q.prop "value").isNullish = false)
    ∧ Index.explicitMapping repeatedQuestions exampleConfig.FILLOUT_FIELD_MAPPINGS
        UpdateData.empty = some UpdateData.empty
    ∧ Index.updateData exampleConfig repeatedQuestions = some [("q1", str "yes")]
    ∧ UpdateSet.get [("q1", str "yes")] "hdd_evaluation_1" = none :=
  ⟨⟨("wrV6", "hdd_evaluation_1"), by simp [exampleConfig],
      obj [("id", str "wrV6"), ("name", str "q1"), ("value", str "yes")],
      by simp [repeatedQuestions], rfl, rfl⟩,
    rfl, rfl, rfl⟩

/-- C3, amended: for every submission of question objects (no element is `null`) whose
names and values have a string form (the log line of the loop prints them), and every
field-mapping table none of whose attributes is `__proto__`, in which, for at least one
mapping entry, the first question carrying the entry's question id has a value that is
neither null nor undefined, the automatic fallback mapping does not run (the explicit
mapping completes and leaves `updateData` with own properties, which are the UpdateSet):
the UpdateSet consists exactly of attribute ↦ value for the mapping entries whose first
question has such a value (written in the order of the table), and every one of its
entries comes from a mapping entry, none from the automatic mapping. -/
theorem C3_explicit_mapping_without_fallback (cfg : Config) (qs : List JVal)
    (hqs : IsSubmission qs)
    (hprint : ∀ q ∈ qs, toStr (q.prop "name") ≠ none ∧ toStr (q.prop "value") ≠ none)
    (htable : ∀ m ∈ cfg.FILLOUT_FIELD_MAPPINGS, m.2 ≠ "__proto__")
    (hmatch : ∃ m ∈ cfg.FILLOUT_FIELD_MAPPINGS, ∃ q, firstWithId qs m.1 = some q
      ∧ (q.prop "value").isNullish = false) :
    ∃ u, Index.updateData cfg qs = some u
      ∧ (∃ explicit, Index.explicitMapping qs cfg.FILLOUT_FIELD_MAPPINGS UpdateData.empty
          = some explicit ∧ explicit.own = u)
      ∧ u.isEmpty = false
      ∧ (∀ a, UpdateSet.get u a = lastWrite (explicitEntries qs cfg.FILLOUT_FIELD_MAPPINGS) a)
      ∧ (∀ m ∈ cfg.FILLOUT_FIELD_MAPPINGS, ∀ q, firstWithId qs m.1 = some q →
          (q.prop "value").isNullish = false → m.2 ∈ UpdateSet.keys u)
      ∧ (∀ a v, UpdateSet.get u a = some v →
          ∃ m ∈ cfg.FILLOUT_FIELD_MAPPINGS, m.2 = a ∧ ∃ q, firstWithId qs m.1 = some q
            ∧ q.prop "value" = v ∧ v.isNullish = false) := by
  obtain ⟨m, hm, q, hq, hv⟩ := hmatch
  obtain ⟨explicit, hexp⟩ := Index.explicitMapping_isSome qs hqs hprint
    cfg.FILLOUT_FIELD_MAPPINGS UpdateData.empty
  have heq := Index.explicitMapping_eq_some qs _ _ _ hexp
  have hmem : (m.2, q.prop "value") ∈ explicitEntries qs cfg.FILLOUT_FIELD_MAPPINGS :=
    (mem_explicitEntries qs _ m.2 (q.prop "value")).mpr ⟨m, hm, rfl, q, hq, rfl, hv⟩
  have hne : explicit.own ≠ [] := by
    rw [heq]
    exact applyEntries_own_ne_nil_of_mem _ _ _ hmem (htable m hm)
  have hsome : ∀ a v, UpdateSet.get explicit.own a = some v →
      (a, v) ∈ explicitEntries qs cfg.FILLOUT_FIELD_MAPPINGS := by
    intro a v hav
    rw [heq] at hav
    rcases get_applyEntries_some _ _ a v hav with h | h
    · exact h
    · simp [UpdateData.empty, UpdateSet.get] at h
  have hget : ∀ a, UpdateSet.get explicit.own a
      = lastWrite (explicitEntries qs cfg.FILLOUT_FIELD_MAPPINGS) a := by
    intro a
    by_cases ha : a = "__proto__"
    · have h1 : lastWrite (explicitEntries qs cfg.FILLOUT_FIELD_MAPPINGS) a = none := by
        cases hl : lastWrite (explicitEntries qs cfg.FILLOUT_FIELD_MAPPINGS) a with
        | none => rfl
        | some w =>
          obtain ⟨m', hm', hma, _⟩ :=
            (mem_explicitEntries qs _ a w).mp (lastWrite_mem _ a w hl)
          exact absurd (hma.trans ha) (htable m' hm')
      rw [h1]
      cases hg : UpdateSet.get explicit.own a with
      | none => rfl
      | some w =>
        obtain ⟨m', hm', hma, _⟩ := (mem_explicitEntries qs _ a w).mp (hsome a w hg)
        exact absurd (hma.trans ha) (htable m' hm')
    · rw [heq]
      exact get_applyEntries_empty _ a ha
  refine ⟨explicit.own, ?_, ⟨explicit, hexp, rfl⟩, ?_, hget, ?_, ?_⟩
  · simp only [Index.updateData, hexp]
    cases he : explicit.own with
    | nil => exact absurd he hne
    | cons e es => rfl
  · cases he : explicit.own with
    | nil => exact absurd he hne
    | cons e es => rfl
  · intro m' hm' q' hq' hv'
    rw [mem_keys_iff_get, hget]
    exact lastWrite_isSome_of_mem _ _ (q'.prop "value")
      ((mem_explicitEntries qs _ m'.2 (q'.prop "value")).mpr ⟨m', hm', rfl, q', hq', rfl, hv'⟩)
  · intro a v hav
    exact (mem_explicitEntries qs _ a v).mp (hsome a v hav)

/-- C3 on the example of the specification: the payload `{questions: [{id: "6aYW",
name: "domain", value: "acme.com"}, {id: "wrV6", name: "q1", value: "yes"}]}` with the
mapping `{wrV6: "hdd_evaluation_1"}` gives the UpdateSet `{hdd_evaluation_1: "yes"}` and
the domain `"acme.com"`. -/
theorem C3_explicit_mapping_witness :
    (∃ u, Index.updateData exampleConfig exampleQuestions = some u
      ∧ (∃ explicit, Index.explicitMapping exampleQuestions
            exampleConfig.FILLOUT_FIELD_MAPPINGS UpdateData.empty = some explicit
          ∧ explicit.own = u)
      ∧ u.isEmpty = false
      ∧ (∀ a, UpdateSet.get u a
          = lastWrite (explicitEntries exampleQuestions exampleConfig.FILLOUT_FIELD_MAPPINGS) a)
      ∧ (∀ m ∈ exampleConfig.FILLOUT_FIELD_MAPPINGS, ∀ q,
          firstWithId exampleQuestions m.1 = some q →
          (q.prop "value").isNullish = false → m.2 ∈ UpdateSet.keys u)
      ∧ (∀ a v, UpdateSet.get u a = some v →
          ∃ m ∈ exampleConfig.FILLOUT_FIELD_MAPPINGS, m.2 = a
            ∧ ∃ q, firstWithId exampleQuestions m.1 = some q
            ∧ q.prop "value" = v ∧ v.isNullish = false))
    ∧ Index.updateData exampleConfig exampleQuestions
        = some [("hdd_evaluation_1", str "yes")]
    ∧ (findById exampleQuestions exampleConfig.FILLOUT_DOMAIN_FIELD_ID).map
        (fun q => optProp q "value") = some (str "acme.com") :=
  ⟨C3_explicit_mapping_without_fallback exampleConfig exampleQuestions
      (by intro q hq; simp [exampleQuestions] at hq; rcases hq with h | h <;> subst h <;> rfl)
      (by
        intro q hq
        simp [exampleQuestions] at hq
        rcases hq with h | h <;> subst h <;> exact ⟨by decide, by decide⟩)
      (by intro m hm; simp [exampleConfig] at hm; subst hm; decide)
      ⟨("wrV6", "hdd_evaluation_1"), by simp [exampleConfig],
        obj [("id", str "wrV6"), ("name", str "q1"), ("value", str "yes")], rfl, rfl⟩,
    rfl, rfl⟩

/-- C4, on the payload `{questions: [{id: "6aYW", name: "domain", value: "acme.com"},
{id: "wrV6", name: "__proto__", value: "yes"}]}` with the empty mapping table of
`src/api/webhook.js`: the second question has an id other than the domain question id and
a truthy value, and its name is the key `__proto__`; the assignment
`updateData["__proto__"] = "yes"` reaches the accessor of `Object.prototype` and creates no
own property, so the UpdateSet of both handlers stays empty, the question is not in it, and
the handler answers 400 `No fields to update` after the two queries, without a PATCH. -/
theorem C4_proto_named_question_is_dropped :
    (∃ q ∈ protoNamedQuestions, autoMapped "6aYW" q = true
      ∧ attributeName q = some "__proto__" ∧ q.prop "value" = str "yes")
    ∧ Index.explicitMapping protoNamedQuestions emptyTableConfig.FILLOUT_FIELD_MAPPINGS
        UpdateData.empty = some UpdateData.empty
    ∧ Api.updateData emptyTableConfig protoNamedQuestions = some []
    ∧ Index.updateData emptyTableConfig protoNamedQuestions = some []
    ∧ (Api.handlerWith emptyTableConfig "POST"
        (obj [("questions", arr protoNamedQuestions)]) exampleCrm).status = 400
    ∧ (Api.handlerWith emptyTableConfig "POST"
        (obj [("questions", arr protoNamedQuestions)]) exampleCrm).calls
      = [.companyQuery "key" "domains" (str "acme.com"), .listQuery "key" "list" (str "c-1")]
    ∧ (∃ fields, (Api.handlerWith emptyTableConfig "POST"
        (obj [("questions", arr protoNamedQuestions)]) exampleCrm).body
      = .noFieldsToUpdate fields) :=
  ⟨⟨obj [("id", str "wrV6"), ("name", str "__proto__"), ("value", str "yes")],
      by simp [protoNamedQuestions], rfl, rfl, rfl⟩,
    rfl, rfl, rfl, rfl, rfl, ⟨_, rfl⟩⟩

/-- Where the claim on the automatic mapping holds: when the mapping step completes after
an explicit loop that left `updateData` without own property, every automatically mapped
question whose key is not `__proto__` has its key in the UpdateSet, with the value of the
last automatically mapped question of that key; every entry of the UpdateSet comes from a
question whose id is not the domain question id and whose value is truthy. -/
theorem automatic_mapping_of_ordinary_keys (cfg : Config) (qs : List JVal) (u : UpdateSet)
    (explicit : UpdateData)
    (hexp : Index.explicitMapping qs cfg.FILLOUT_FIELD_MAPPINGS UpdateData.empty
      = some explicit)
    (hnone : explicit.own = [])
    (hu : Index.updateData cfg qs = some u) :
    (∀ q ∈ qs, ∀ a, autoMapped cfg.FILLOUT_DOMAIN_FIELD_ID q = true →
        attributeName q = some a → a ≠ "__proto__" → a ∈ UpdateSet.keys u)
    ∧ (∀ a, a ≠ "__proto__" → UpdateSet.get u a
        = lastWrite (automaticEntries cfg.FILLOUT_DOMAIN_FIELD_ID qs) a)
    ∧ (∀ a v, UpdateSet.get u a = some v →
        ∃ q ∈ qs, strictEq (q.prop "id") cfg.FILLOUT_DOMAIN_FIELD_ID = false
          ∧ (q.prop "value").truthy = true ∧ attributeName q = some a
          ∧ q.prop "value" = v) := by
  have heq := Index.explicitMapping_eq_some qs _ _ _ hexp
  have hu' := Index.updateData_eq_some cfg qs u hu
  rw [← heq] at hu'
  simp only [hnone, List.isEmpty_nil, if_true] at hu'
  have hget : ∀ a, a ≠ "__proto__" → UpdateSet.get u a
      = lastWrite (automaticEntries cfg.FILLOUT_DOMAIN_FIELD_ID qs) a := by
    intro a ha
    rw [hu', get_applyEntries _ _ a ha, hnone]
    cases lastWrite (automaticEntries cfg.FILLOUT_DOMAIN_FIELD_ID qs) a <;> rfl
  refine ⟨?_, hget, ?_⟩
  · intro q hq a hm ha hne
    rw [mem_keys_iff_get, hget a hne]
    exact lastWrite_isSome_of_mem _ _ (q.prop "value")
      ((mem_automaticEntries _ qs _ _).mpr ⟨q, hq, hm, ha, rfl⟩)
  · intro a v hav
    rw [hu'] at hav
    rcases get_applyEntries_some _ _ a v hav with h | h
    · obtain ⟨q, hq, hm, ha, hv⟩ := (mem_automaticEntries _ qs a v).mp h
      simp only [autoMapped, Bool.and_eq_true, Bool.not_eq_true'] at hm
      exact ⟨q, hq, hm.1, hm.2, ha, hv⟩
    · simp [hnone, UpdateSet.get] at h

/-! ## The domain question and the UpdateSet (§3) -/

/-- C5, the claim as stated fails: with the mapping table `{"6aYW": "domains"}` and
the example payload, in which the domain question is found, both handlers build the UpdateSet
`{domains: "acme.com"}`, whose only entry originates from the domain question: the
explicit mapping does not exclude the domain question id. -/
theorem C5_counterexample_domain_in_table :
    Index.updateData domainMappedConfig exampleQuestions = some [("domains", str "acme.com")]
    ∧ Api.updateData domainMappedConfig exampleQuestions = some [("domains", str "acme.com")]
    ∧ firstWithId exampleQuestions domainMappedConfig.FILLOUT_DOMAIN_FIELD_ID
        = some (obj [("id", str "6aYW"), ("name", str "domain"), ("value", str "acme.com")])
    ∧ ¬ NoEntryFromDomainQuestion domainMappedConfig exampleQuestions
        [("domains", str "acme.com")] := by
  refine ⟨rfl, rfl, rfl, ?_⟩
  intro h
  have h2 := (h "domains" (str "acme.com") rfl).2
    (obj [("id", str "6aYW"), ("name", str "domain"), ("value", str "acme.com")])
    ⟨rfl, Or.inl ⟨("6aYW", "domains"), by simp [domainMappedConfig], rfl, rfl⟩⟩
  exact absurd h2 (by decide)

/-- C5, amended: for every submission (a sequence of question objects: no element is
`null`) and every field-mapping table that has no entry for
the domain question id, the UpdateSet built by either handler (explicit mapping followed by
the automatic fallback) has no entry that originates from a question whose id is the
configured domain question id; the automatic mapping excludes the domain question
whatever the table is. -/
theorem C5_domain_question_not_updated (cfg : Config) (qs : List JVal) (u : UpdateSet)
    (hqs : IsSubmission qs)
    (htable : ∀ m ∈ cfg.FILLOUT_FIELD_MAPPINGS, m.1 ≠ cfg.FILLOUT_DOMAIN_FIELD_ID)
    (hu : Index.updateData cfg qs = some u ∨ Api.updateData cfg qs = some u) :
    NoEntryFromDomainQuestion cfg qs u
    ∧ ∀ a v, (a, v) ∈ automaticEntries cfg.FILLOUT_DOMAIN_FIELD_ID qs →
        ∃ q ∈ qs, strictEq (q.prop "id") cfg.FILLOUT_DOMAIN_FIELD_ID = false
          ∧ attributeName q = some a ∧ q.prop "value" = v := by
  have _ := hqs
  have hu' : Index.updateData cfg qs = some u := by
    rcases hu with h | h
    · exact h
    · rw [← Api.updateData_eq_index]; exact h
  have hnot : ∀ a v q, Originates cfg qs a v q →
      strictEq (q.prop "id") cfg.FILLOUT_DOMAIN_FIELD_ID = false := by
    rintro a v q ⟨_, ⟨m, hm, _, hf⟩ | ⟨_, hauto, _⟩⟩
    · have hid := (firstWithId_some qs m.1 q hf).2
      have hne := htable m hm
      cases hq : q.prop "id" <;> simp_all [strictEq]
    · simp only [autoMapped, Bool.and_eq_true, Bool.not_eq_true'] at hauto
      exact hauto.1
  have hempty : ∀ a, UpdateSet.get UpdateData.empty.own a = none := fun _ => rfl
  constructor
  · intro a v hav
    refine ⟨?_, hnot a v⟩
    have hu2 := Index.updateData_eq_some cfg qs u hu'
    by_cases he : (applyEntries UpdateData.empty
        (explicitEntries qs cfg.FILLOUT_FIELD_MAPPINGS)).own.isEmpty = true
    · rw [if_pos he] at hu2
      rw [hu2] at hav
      rcases get_applyEntries_some _ _ a v hav with h | h
      · obtain ⟨q, hq, hm, ha, hv⟩ := (mem_automaticEntries _ qs a v).mp h
        exact ⟨q, hv, Or.inr ⟨hq, hm, ha⟩⟩
      · have hnil : (applyEntries UpdateData.empty
            (explicitEntries qs cfg.FILLOUT_FIELD_MAPPINGS)).own = [] := by
          simpa using he
        rw [hnil] at h
        simp [UpdateSet.get] at h
    · rw [if_neg he] at hu2
      rw [hu2] at hav
      rcases get_applyEntries_some _ _ a v hav with h | h
      · obtain ⟨m, hm, ha, q, hf, hv, _⟩ := (mem_explicitEntries qs _ a v).mp h
        exact ⟨q, hv, Or.inl ⟨m, hm, ha, hf⟩⟩
      · rw [hempty] at h
        simp at h
  · intro a v hav
    obtain ⟨q, hq, hm, ha, hv⟩ := (mem_automaticEntries _ qs a v).mp hav
    simp only [autoMapped, Bool.and_eq_true, Bool.not_eq_true'] at hm
    exact ⟨q, hq, hm.1, ha, hv⟩

/-- C5 on the example payload with the mapping table of `src/index.js`, which has no entry
for the domain question `6aYW`. -/
theorem C5_domain_question_witness :
    NoEntryFromDomainQuestion (Index.config "key") exampleQuestions
      [("hdd_evaluation_1", str "yes")]
    ∧ ∀ a v, (a, v) ∈ automaticEntries (Index.config "key").FILLOUT_DOMAIN_FIELD_ID
          exampleQuestions →
        ∃ q ∈ exampleQuestions,
          strictEq (q.prop "id") (Index.config "key").FILLOUT_DOMAIN_FIELD_ID = false
          ∧ attributeName q = some a ∧ q.prop "value" = v :=
  C5_domain_question_not_updated (Index.config "key") exampleQuestions
    [("hdd_evaluation_1", str "yes")]
    (by intro q hq; simp [exampleQuestions] at hq; rcases hq with h | h <;> subst h <;> rfl)
    (by intro m hm; simp [Index.config] at hm; rcases hm with h | h <;> subst h <;> decide)
    (Or.inl rfl)

/-! ## One entry per attribute, and repeated question ids (§3) -/

theorem Index.updateData_keys_nodup (cfg : Config) (qs : List JVal) (u : UpdateSet)
    (h : Index.updateData cfg qs = some u) : (UpdateSet.keys u).Nodup := by
  have h0 : (UpdateSet.keys UpdateData.empty.own).Nodup := by
    simp [UpdateData.empty, UpdateSet.keys]
  have h1 := keys_nodup_applyEntries (explicitEntries qs cfg.FILLOUT_FIELD_MAPPINGS) _ h0
  rw [Index.updateData_eq_some cfg qs u h]
  split
  · exact keys_nodup_applyEntries _ _ h1
  · exact h1

/-- C9, the claim as stated fails for explicitly mapped ids: in `twiceAnswered` the id
`wrV6`, mapped to `hdd_evaluation_1` by the table of `src/index.js`, is carried by two
questions, the last of which has the value `"last"`; the UpdateSet of both handlers is
`{hdd_evaluation_1: "first"}`: the entry carries the value of the first such question, not
of the last one. -/
theorem C9_counterexample_first_wins :
    Index.updateData (Index.config "key") twiceAnswered
      = some [("hdd_evaluation_1", str "first")]
    ∧ Api.updateData (Index.config "key") twiceAnswered
      = some [("hdd_evaluation_1", str "first")]
    ∧ firstWithId twiceAnswered.reverse "wrV6"
      = some (obj [("id", str "wrV6"), ("name", str "q1"), ("value", str "last")])
    ∧ UpdateSet.get [("hdd_evaluation_1", str "first")] "hdd_evaluation_1"
      ≠ some (str "last") := by
  refine ⟨rfl, rfl, rfl, ?_⟩
  simp [UpdateSet.get]

/-- C9, amended: whenever the mapping step of either handler completes, the UpdateSet has
at most one entry per CRM attribute.  When the submission holds several questions with the
same id: for an explicitly mapped id, the entry of its attribute (other than `__proto__`)
carries the value of the first such question, whatever follows it in the submission,
provided no later entry of the table writes the same attribute; for automatically mapped
questions (the explicit loop having left `updateData` without own property) the last write
wins: the entry of an attribute (other than `__proto__`) carries the value of the last
automatically mapped question keyed by that attribute. -/
theorem C9_one_entry_per_attribute (cfg : Config) (qs : List JVal) (u : UpdateSet)
    (hu : Index.updateData cfg qs = some u ∨ Api.updateData cfg qs = some u) :
    (UpdateSet.keys u).Nodup
    ∧ (∀ mpre mpost fieldId a pre q post,
        cfg.FILLOUT_FIELD_MAPPINGS = mpre ++ (fieldId, a) :: mpost →
        a ≠ "__proto__" →
        (∀ m ∈ mpost, m.2 ≠ a) →
        qs = pre ++ q :: post →
        (∀ p ∈ pre, strictEq (p.prop "id") fieldId = false) →
        strictEq (q.prop "id") fieldId = true →
        (q.prop "value").isNullish = false →
        UpdateSet.get u a = some (q.prop "value"))
    ∧ ((∃ explicit, Index.explicitMapping qs cfg.FILLOUT_FIELD_MAPPINGS UpdateData.empty
            = some explicit ∧ explicit.own = []) →
        ∀ pre q post a, qs = pre ++ q :: post →
        autoMapped cfg.FILLOUT_DOMAIN_FIELD_ID q = true →
        attributeName q = some a →
        a ≠ "__proto__" →
        (∀ p ∈ post, autoMapped cfg.FILLOUT_DOMAIN_FIELD_ID p = true →
          attributeName p ≠ some a) →
        UpdateSet.get u a = some (q.prop "value")) := by
  have hu' : Index.updateData cfg qs = some u := by
    rcases hu with h | h
    · exact h
    · rw [← Api.updateData_eq_index]; exact h
  have hu2 := Index.updateData_eq_some cfg qs u hu'
  refine ⟨Index.updateData_keys_nodup cfg qs u hu', ?_, ?_⟩
  · intro mpre mpost fieldId a pre q post htable ha hpost hsplit hpre hq hv
    have hfirst : firstWithId qs fieldId = some q := by
      rw [hsplit]
      exact firstWithId_append pre post q fieldId hpre hq
    have hlast := explicit_first_wins qs mpre mpost fieldId a q hfirst hv hpost
    rw [← htable] at hlast
    have hmem := lastWrite_mem _ a _ hlast
    have hne : (applyEntries UpdateData.empty
        (explicitEntries qs cfg.FILLOUT_FIELD_MAPPINGS)).own ≠ [] :=
      applyEntries_own_ne_nil_of_mem _ _ _ hmem ha
    have hne2 : (applyEntries UpdateData.empty
        (explicitEntries qs cfg.FILLOUT_FIELD_MAPPINGS)).own.isEmpty = false := by
      cases he : (applyEntries UpdateData.empty
          (explicitEntries qs cfg.FILLOUT_FIELD_MAPPINGS)).own with
      | nil => exact absurd he hne
      | cons e es => rfl
    rw [hne2] at hu2
    simp only [Bool.false_eq_true, if_false] at hu2
    rw [hu2, get_applyEntries_empty _ a ha]
    exact hlast
  · rintro ⟨explicit, hexp, hnone⟩ pre q post a hsplit hq hqa ha hpost
    have heq := Index.explicitMapping_eq_some qs _ _ _ hexp
    rw [← heq] at hu2
    simp only [hnone, List.isEmpty_nil, if_true] at hu2
    rw [hu2, get_applyEntries _ _ a ha, hsplit,
      automatic_last_wins _ pre post q a hq hqa hpost]

/-- C9 on `twiceAnswered`: one entry per attribute; with the table of `src/index.js` the
first answer to `wrV6` is kept, and with an empty table, where both answers are keyed `q1`
by the automatic mapping, the last one is. -/
theorem C9_one_entry_witness :
    ((UpdateSet.keys [("hdd_evaluation_1", str "first")]).Nodup
      ∧ UpdateSet.get [("hdd_evaluation_1", str "first")] "hdd_evaluation_1"
          = some (str "first"))
    ∧ ((UpdateSet.keys [("q1", str "last")]).Nodup
      ∧ UpdateSet.get [("q1", str "last")] "q1" = some (str "last")) :=
  have h1 := C9_one_entry_per_attribute (Index.config "key") twiceAnswered
    [("hdd_evaluation_1", str "first")] (Or.inl rfl)
  have h2 := C9_one_entry_per_attribute emptyTableConfig twiceAnswered [("q1", str "last")]
    (Or.inr rfl)
  ⟨⟨h1.1, h1.2.1 [] [("6rxp", "hdd_evaluation_2")] "wrV6" "hdd_evaluation_1"
      [obj [("id", str "6aYW"), ("name", str "domain"), ("value", str "acme.com")]]
      (obj [("id", str "wrV6"), ("name", str "q1"), ("value", str "first")])
      [obj [("id", str "wrV6"), ("name", str "q1"), ("value", str "last")]]
      rfl (by decide) (by intro m hm; simp at hm; subst hm; decide) rfl
      (by intro p hp; simp at hp; subst hp; decide) (by decide) rfl⟩,
    ⟨h2.1, h2.2.2 ⟨UpdateData.empty, rfl, rfl⟩
      [obj [("id", str "6aYW"), ("name", str "domain"), ("value", str "acme.com")],
       obj [("id", str "wrV6"), ("name", str "q1"), ("value", str "first")]]
      (obj [("id", str "wrV6"), ("name", str "q1"), ("value", str "last")]) [] "q1"
      rfl (by decide) rfl (by decide) (by intro p hp; simp at hp)⟩⟩

/-! ## The three handlers side by side (§1) -/

/-- C10, the claim as stated fails: `src/pages/api/webhook.js` is a stub.  For the flat
payload `{questions: [{id: "wrV6", name: "q1", value: "yes"}]}`, which has no domain
question, it answers 200 where the two other handlers answer 400; for the example payload
of the specification it answers 200 without any CRM call where the two other handlers
issue the two queries and the PATCH. -/
theorem C10_counterexample_stub_handler :
    (Pages.handler "POST" (obj [("questions", arr noDomainQuestions)]) exampleCrm).status = 200
    ∧ (Api.handlerWith (Index.config "key") "POST"
        (obj [("questions", arr noDomainQuestions)]) exampleCrm).status = 400
    ∧ (Index.webhookWith (Index.config "key")
        (obj [("questions", arr noDomainQuestions)]) exampleCrm).status = 400
    ∧ (Pages.handler "POST" (obj [("questions", arr exampleQuestions)]) exampleCrm).calls = []
    ∧ (Index.webhookWith (Index.config "key")
        (obj [("questions", arr exampleQuestions)]) exampleCrm).calls
      = [.companyQuery "key" "domains" (str "acme.com"),
         .listQuery "key" "e2f1f046-d64f-4b4a-8e90-25b7c10140ba" (str "c-1"),
         .patchEntry "key" "e2f1f046-d64f-4b4a-8e90-25b7c10140ba" (str "e-1")
           [("hdd_evaluation_1", str "yes")]]
    ∧ (Api.handlerWith (Index.config "key") "POST"
        (obj [("questions", arr exampleQuestions)]) exampleCrm).calls
      = (Index.webhookWith (Index.config "key")
        (obj [("questions", arr exampleQuestions)]) exampleCrm).calls :=
  ⟨rfl, rfl, rfl, rfl, rfl, rfl⟩

/-- C10, amended: the two full handlers (`src/api/webhook.js` and the route `POST /webhook`
of `src/index.js`) differ only in deployment target and payload-shape tolerance: for every
POST request with a flat payload `{questions: qs}` where `qs` is a non-empty array, under
the same configuration and the same CRM responses, they return the same HTTP status code
and issue the same sequence of CRM calls, with the same UpdateSet in the PATCH.  The third
handler, `src/pages/api/webhook.js`, answers 200 to every request and issues no CRM
call. -/
theorem C10_full_handlers_agree (cfg : Config) (crm : Crm) (body : JVal) (qs : List JVal)
    (hflat : getProp body "questions" = some (arr qs)) (hne : qs ≠ []) :
    (Api.handlerWith cfg "POST" body crm).status = (Index.webhookWith cfg body crm).status
    ∧ (Api.handlerWith cfg "POST" body crm).calls = (Index.webhookWith cfg body crm).calls
    ∧ ∀ method, (Pages.handler method body crm).status = 200
        ∧ (Pages.handler method body crm).calls = [] := by
  have hnorm : Index.normalize body = some qs := by simp [Index.normalize, hflat]
  have hresp : Api.responses body = some (arr qs) := by simp [Api.responses, hflat, truthy]
  have hem : qs.isEmpty = false := by cases qs <;> simp_all
  have hpages : ∀ method, (Pages.handler method body crm).status = 200
      ∧ (Pages.handler method body crm).calls = [] := by
    intro method
    simp only [Pages.handler]
    split <;> exact ⟨rfl, rfl⟩
  have hrec := Api.receivedNames_isSome_eq qs
  have key : (Api.handlerWith cfg "POST" body crm).status
        = (Index.webhookWith cfg body crm).status
      ∧ (Api.handlerWith cfg "POST" body crm).calls
        = (Index.webhookWith cfg body crm).calls := by
    simp only [Api.handlerWith, Index.webhookWith, hnorm, hresp, hem, Api.elements,
      Api.paso1_eq_index]
    cases hr1 : Api.receivedNames qs with
    | none =>
      cases hr2 : Index.receivedFields qs with
      | none => (repeat' split) <;> first | exact ⟨rfl, rfl⟩ | simp_all
      | some fields => simp [hr1, hr2] at hrec
    | some names =>
      cases hr2 : Index.receivedFields qs with
      | none => simp [hr1, hr2] at hrec
      | some fields => (repeat' split) <;> first | exact ⟨rfl, rfl⟩ | simp_all
  exact ⟨key.1, key.2, hpages⟩

/-- C10 on the example payload of the specification. -/
theorem C10_full_handlers_witness :
    (Api.handlerWith (Index.config "key") "POST"
        (obj [("questions", arr exampleQuestions)]) exampleCrm).status
      = (Index.webhookWith (Index.config "key")
        (obj [("questions", arr exampleQuestions)]) exampleCrm).status
    ∧ (Api.handlerWith (Index.config "key") "POST"
        (obj [("questions", arr exampleQuestions)]) exampleCrm).calls
      = (Index.webhookWith (Index.config "key")
        (obj [("questions", arr exampleQuestions)]) exampleCrm).calls
    ∧ ∀ method, (Pages.handler method (obj [("questions", arr exampleQuestions)])
          exampleCrm).status = 200
        ∧ (Pages.handler method (obj [("questions", arr exampleQuestions)])
          exampleCrm).calls = [] :=
  C10_full_handlers_agree (Index.config "key") exampleCrm
    (obj [("questions", arr exampleQuestions)]) exampleQuestions rfl (by simp [exampleQuestions])

/-! ## String conversion and `__proto__` on concrete values -/

/-- An object with an own property `toString` has no string form; an array is joined, its
`null` elements giving the empty string; a number prints as its text. -/
theorem toStr_examples :
    toStr (obj [("toString", num "1")]) = none
    ∧ toStr (arr [str "a", obj [("toString", num "1")]]) = none
    ∧ toStr (obj [("valueOf", num "1")]) = some "[object Object]"
    ∧ toStr (arr [str "a", null, arr [num "1e+21", bool true]]) = some "a,,1e+21,true"
    ∧ toPropertyKey (num "1e+21") = toPropertyKey (str "1e+21") :=
  ⟨rfl, rfl, rfl, rfl, rfl⟩

/-- A domain without a string form: the log line before the company query throws, and both
handlers answer 500 without any CRM call. -/
theorem unprintable_domain_ends_in_500 (crm : Crm) :
    (Index.webhook "key" (obj [("questions",
        arr [obj [("id", str "6aYW"), ("value", obj [("toString", num "1")])]])]) crm).status
      = 500
    ∧ (Index.webhook "key" (obj [("questions",
        arr [obj [("id", str "6aYW"), ("value", obj [("toString", num "1")])]])]) crm).calls
      = []
    ∧ (Api.handler "6aYW" "" "key" "list" "POST" (obj [("questions",
        arr [obj [("id", str "6aYW"), ("value", obj [("toString", num "1")])]])]) crm).status
      = 500
    ∧ (Api.handler "6aYW" "" "key" "list" "POST" (obj [("questions",
        arr [obj [("id", str "6aYW"), ("value", obj [("toString", num "1")])]])]) crm).calls
      = [] :=
  ⟨rfl, rfl, rfl, rfl⟩

/-- Assignments to `__proto__`: a string is dropped; an object becomes the prototype; and
once the prototype is an object of the payload with an own property `__proto__`, the next
assignment creates an own property. -/
theorem assign_proto_examples :
    (assign UpdateData.empty "__proto__" (str "yes")).own = []
    ∧ (assign UpdateData.empty "__proto__" (obj [("a", num "1")])).own = []
    ∧ (assign (assign UpdateData.empty "__proto__" (obj [("__proto__", num "1")]))
        "__proto__" (str "yes")).own = [("__proto__", str "yes")]
    ∧ (assign (assign UpdateData.empty "__proto__" (obj [("a", num "1")]))
        "__proto__" (str "yes")).own = []
    ∧ (assign UpdateData.empty "q1" (str "yes")).own = [("q1", str "yes")] :=
  ⟨rfl, rfl, rfl, rfl, rfl⟩
